import Mathlib

/-!
Verification of the transparent-company trust kernel against its specification.

This file gives a shallow embedding, in Lean 4, of the core of the
`transparent-company` repository (a verifiable event-sourced ledger with
policy-gated disclosure), together with theorems settling the spec claims.

Embedding conventions:
* machine bytes are `Nat` values < 256 in `List Nat`; hashes are lowercase
  hex-64 `String`s, exactly as in the Python code;
* `hashlib.sha256` is embedded as a concrete executable SHA-256 over byte
  lists (validated against the standard test vectors);
* Python `dict` values flowing through the canonical codec are embedded as
  the JSON-like inductive `Value`; recursion over `Value` uses an explicit
  fuel of 1000, mirroring Python's recursion limit (all values in this
  system are orders of magnitude shallower);
* instants are embedded by their canonical RFC3339 text (the only form in
  which the code hashes them), and unix timestamps by `Int`;
* fallible code returns `Except`/`Option`; mutation of ORM rows becomes
  explicit state passing.
-/

namespace TC

/-! ### Byte and string utilities -/

/-- Byte-wise (code-point) strict order on char lists, as Python's `str <`. -/
def charListLtb : List Char → List Char → Bool
  | [], [] => false
  | [], _ :: _ => true
  | _ :: _, [] => false
  | a :: as, b :: bs =>
    if a.toNat < b.toNat then true
    else if b.toNat < a.toNat then false
    else charListLtb as bs

def strLtb (a b : String) : Bool := charListLtb a.toList b.toList

def strLeb (a b : String) : Bool := !(strLtb b a)

/-- Stable insertion of `x` into a list sorted by `le` (before later equals). -/
def insertBy (le : α → α → Bool) (x : α) : List α → List α
  | [] => [x]
  | y :: ys => if le x y then x :: y :: ys else y :: insertBy le x ys

/-- Stable insertion sort; Python's `sorted` is also stable, so the two agree
on every comparator that is a total preorder. -/
def sortBy (le : α → α → Bool) : List α → List α
  | [] => []
  | x :: xs => insertBy le x (sortBy le xs)

/-- UTF-8 bytes of an ASCII string (all strings fed to hashing in this
development are ASCII, which the canonical codec guarantees via
`ensure_ascii`). -/
def strBytes (s : String) : List Nat := s.toList.map Char.toNat

/-! ### SHA-256 (`hashlib.sha256`), implemented concretely -/

/-- 32-bit truncation; machine words are `Nat` mod 2^32. -/
def w32 (n : Nat) : Nat := n % 4294967296

def rotr32 (n x : Nat) : Nat := w32 ((x >>> n) ||| (x <<< (32 - n)))

def shaK : List Nat :=
  [1116352408, 1899447441, 3049323471, 3921009573, 961987163, 1508970993,
   2453635748, 2870763221, 3624381080, 310598401, 607225278, 1426881987,
   1925078388, 2162078206, 2614888103, 3248222580, 3835390401, 4022224774,
   264347078, 604807628, 770255983, 1249150122, 1555081692, 1996064986,
   2554220882, 2821834349, 2952996808, 3210313671, 3336571891, 3584528711,
   113926993, 338241895, 666307205, 773529912, 1294757372, 1396182291,
   1695183700, 1986661051, 2177026350, 2456956037, 2730485921, 2820302411,
   3259730800, 3345764771, 3516065817, 3600352804, 4094571909, 275423344,
   430227734, 506948616, 659060556, 883997877, 958139571, 1322822218,
   1537002063, 1747873779, 1955562222, 2024104815, 2227730452, 2361852424,
   2428436474, 2756734187, 3204031479, 3329325298]

structure Hash8 where
  a : Nat
  b : Nat
  c : Nat
  d : Nat
  e : Nat
  f : Nat
  g : Nat
  h : Nat

def shaH0 : Hash8 :=
  ⟨1779033703, 3144134277, 1013904242, 2773480762,
   1359893119, 2600822924, 528734635, 1541459225⟩

def smallSigma0 (x : Nat) : Nat := rotr32 7 x ^^^ rotr32 18 x ^^^ (x >>> 3)
def smallSigma1 (x : Nat) : Nat := rotr32 17 x ^^^ rotr32 19 x ^^^ (x >>> 10)
def bigSigma0 (x : Nat) : Nat := rotr32 2 x ^^^ rotr32 13 x ^^^ rotr32 22 x
def bigSigma1 (x : Nat) : Nat := rotr32 6 x ^^^ rotr32 11 x ^^^ rotr32 25 x
def chF (e f g : Nat) : Nat := (e &&& f) ^^^ ((e ^^^ 4294967295) &&& g)
def majF (a b c : Nat) : Nat := (a &&& b) ^^^ (a &&& c) ^^^ (b &&& c)

def bytesToWordsBE : List Nat → List Nat
  | a :: b :: c :: d :: rest => (a * 16777216 + b * 65536 + c * 256 + d) :: bytesToWordsBE rest
  | _ => []

def buildSchedule : Nat → Array Nat → Array Nat
  | 0, ws => ws
  | n + 1, ws =>
    let i := ws.size
    let wNew := w32 (smallSigma1 (ws.getD (i - 2) 0) + ws.getD (i - 7) 0 +
      smallSigma0 (ws.getD (i - 15) 0) + ws.getD (i - 16) 0)
    buildSchedule n (ws.push wNew)

def shaRound (s : Hash8) (k w : Nat) : Hash8 :=
  let t1 := w32 (s.h + bigSigma1 s.e + chF s.e s.f s.g + k + w)
  let t2 := w32 (bigSigma0 s.a + majF s.a s.b s.c)
  ⟨w32 (t1 + t2), s.a, s.b, s.c, w32 (s.d + t1), s.e, s.f, s.g⟩

def compressBlock (h : Hash8) (block : List Nat) : Hash8 :=
  let ws := buildSchedule 48 (bytesToWordsBE block).toArray
  let s := (shaK.zip ws.toList).foldl (fun st kw => shaRound st kw.1 kw.2) h
  ⟨w32 (h.a + s.a), w32 (h.b + s.b), w32 (h.c + s.c), w32 (h.d + s.d),
   w32 (h.e + s.e), w32 (h.f + s.f), w32 (h.g + s.g), w32 (h.h + s.h)⟩

def chunksGo : Nat → List Nat → List (List Nat)
  | _, [] => []
  | 0, l => [l]
  | fuel + 1, l => l.take 64 :: chunksGo fuel (l.drop 64)

def chunks64 (l : List Nat) : List (List Nat) := chunksGo l.length l

def be8 (n : Nat) : List Nat :=
  [(n >>> 56) % 256, (n >>> 48) % 256, (n >>> 40) % 256, (n >>> 32) % 256,
   (n >>> 24) % 256, (n >>> 16) % 256, (n >>> 8) % 256, n % 256]

def sha256pad (msg : List Nat) : List Nat :=
  let k := (120 - (msg.length + 1) % 64) % 64
  msg ++ [128] ++ List.replicate k 0 ++ be8 (8 * msg.length)

def wordBE (n : Nat) : List Nat := [(n >>> 24) % 256, (n >>> 16) % 256, (n >>> 8) % 256, n % 256]

def hash8ToBytes (h : Hash8) : List Nat :=
  wordBE h.a ++ wordBE h.b ++ wordBE h.c ++ wordBE h.d ++
  wordBE h.e ++ wordBE h.f ++ wordBE h.g ++ wordBE h.h

/-- SHA-256 of a byte list, as 32 bytes (validated against FIPS test
vectors, e.g. `sha256Hex [] = "e3b0…b855"`, see `sha256_empty_vector`). -/
def sha256 (msg : List Nat) : List Nat :=
  hash8ToBytes ((chunks64 (sha256pad msg)).foldl compressBlock shaH0)

def hexChar (n : Nat) : Char :=
  if n < 10 then Char.ofNat (48 + n) else Char.ofNat (87 + n)

def bytesToHex (bs : List Nat) : String :=
  String.mk (bs.foldr (fun b acc => hexChar (b / 16) :: hexChar (b % 16) :: acc) [])

/-- `hashlib.sha256(msg).hexdigest()`. -/
def sha256Hex (msg : List Nat) : String := bytesToHex (sha256 msg)

/-- Value of a lowercase hex digit. -/
def hexVal (c : Char) : Nat := if 97 ≤ c.toNat then c.toNat - 87 else c.toNat - 48

/-- `bytes.fromhex` on the lowercase hex-64 strings used throughout. -/
def hexToBytes : List Char → List Nat
  | a :: b :: rest => (16 * hexVal a + hexVal b) :: hexToBytes rest
  | _ => []

/-! ### Canonical JSON (`app/ledger/canonical.py`)

`Value` embeds the structured values (Python dict / list / str / int / bool /
None) that flow through `to_canonical_obj`; datetimes, dates, UUIDs, Decimals
and bytes are embedded by their canonical text forms, which is the only way
the code ever hashes them. -/

inductive Value where
  | null
  | bool (b : Bool)
  | int (n : Int)
  | str (s : String)
  | arr (xs : List Value)
  | obj (kvs : List (String × Value))

def keyLeb (a b : String × Value) : Bool := strLeb a.1 b.1

/-- `to_canonical_obj`: sort object keys ascending (byte-wise), recursively.
Fuel-structural; `to_canonical_obj` in Python is likewise bounded by the
interpreter recursion limit. -/
def sortValueF : Nat → Value → Value
  | 0, v => v
  | fuel + 1, .arr xs => .arr (xs.map (sortValueF fuel))
  | fuel + 1, .obj kvs =>
      .obj (sortBy keyLeb (kvs.map (fun kv => (kv.1, sortValueF fuel kv.2))))
  | _, v => v

def hexDigitChar (n : Nat) : Char :=
  if n < 10 then Char.ofNat (48 + n) else Char.ofNat (87 + n)

/-- JSON string escaping as `json.dumps(..., ensure_ascii=True)` produces it
for the character repertoire of this system. -/
def escapeChar (c : Char) : List Char :=
  if c = '"' then ['\\', '"']
  else if c = '\\' then ['\\', '\\']
  else if c = '\n' then ['\\', 'n']
  else if c = '\r' then ['\\', 'r']
  else if c = '\t' then ['\\', 't']
  else if c.toNat < 32 ∨ c.toNat > 126 then
    ['\\', 'u', hexDigitChar (c.toNat / 4096 % 16), hexDigitChar (c.toNat / 256 % 16),
     hexDigitChar (c.toNat / 16 % 16), hexDigitChar (c.toNat % 16)]
  else [c]

def dumpStr (s : String) : String :=
  "\"" ++ String.mk (s.toList.foldr (fun c acc => escapeChar c ++ acc) []) ++ "\""

def joinComma : List String → String
  | [] => ""
  | [x] => x
  | x :: rest => x ++ "," ++ joinComma rest

/-- `json.dumps(..., separators=(",", ":"), ensure_ascii=True)` over an
already-key-sorted value. -/
def dumpValueF : Nat → Value → String
  | 0, _ => ""
  | _, .null => "null"
  | _, .bool b => if b then "true" else "false"
  | _, .int n => toString n
  | _, .str s => dumpStr s
  | fuel + 1, .arr xs => "[" ++ joinComma (xs.map (dumpValueF fuel)) ++ "]"
  | fuel + 1, .obj kvs =>
      "\x7b" ++ joinComma (kvs.map (fun kv => dumpStr kv.1 ++ ":" ++ dumpValueF fuel kv.2)) ++ "\x7d"

def canonFuel : Nat := 1000

/-- `canonical_json(value).decode("utf-8")` — the canonical text. -/
def canonicalJson (v : Value) : String := dumpValueF canonFuel (sortValueF canonFuel v)

/-- `canonical_json(value)` — the canonical bytes (ASCII by construction). -/
def canonicalBytes (v : Value) : List Nat := strBytes (canonicalJson v)

/-- `sha256_hex(value)` from `app/ledger/canonical.py`. -/
def sha256HexV (v : Value) : String := sha256Hex (canonicalBytes v)

/-- First value bound to `k` in an object's entry list (Python dict lookup;
dict keys are unique, so first-match is exact). -/
def lookupKV (kvs : List (String × Value)) (k : String) : Option Value :=
  match kvs with
  | [] => none
  | kv :: rest => if kv.1 == k then some kv.2 else lookupKV rest k

/-- `d.get(k)` on an object; `none` on non-objects. -/
def getKey : Value → String → Option Value
  | .obj kvs, k => lookupKV kvs k
  | _, _ => none

/-- `d[k] = v` on an object: replace the first binding or append (Python
dicts keep insertion order; canonical hashing sorts anyway). -/
def setKey : Value → String → Value → Value
  | .obj kvs, k, v => .obj (setKV kvs k v)
  | other, _, _ => other
where
  setKV : List (String × Value) → String → Value → List (String × Value)
    | [], k, v => [(k, v)]
    | kv :: rest, k, v => if kv.1 == k then (k, v) :: rest else kv :: setKV rest k v

/-- Structural equality of values with order-insensitive objects (Python
`==` on dicts). Python's numeric `True == 1` coercion is not modelled; no
embedded policy compares booleans with integers. Fuel-structural. -/
def beqV : Nat → Value → Value → Bool
  | 0, _, _ => false
  | _, .null, .null => true
  | _, .bool a, .bool b => a == b
  | _, .int a, .int b => a == b
  | _, .str a, .str b => a == b
  | fuel + 1, .arr xs, .arr ys => beqListV fuel xs ys
  | fuel + 1, .obj xs, .obj ys => beqKVs fuel (sortBy keyLeb xs) (sortBy keyLeb ys)
  | _, _, _ => false
where
  beqListV : Nat → List Value → List Value → Bool
    | _, [], [] => true
    | fuel, x :: xs, y :: ys => beqV fuel x y && beqListV fuel xs ys
    | _, _, _ => false
  beqKVs : Nat → List (String × Value) → List (String × Value) → Bool
    | _, [], [] => true
    | fuel, x :: xs, y :: ys => x.1 == y.1 && beqV fuel x.2 y.2 && beqKVs fuel xs ys
    | _, _, _ => false

def valueEq (a b : Value) : Bool := beqV canonFuel a b

/-! ### Base64 (transport encodings used by `signing.py` / `security.py`) -/

def b64CharVal (c : Char) : Option Nat :=
  let n := c.toNat
  if 65 ≤ n ∧ n ≤ 90 then some (n - 65)
  else if 97 ≤ n ∧ n ≤ 122 then some (n - 71)
  else if 48 ≤ n ∧ n ≤ 57 then some (n + 4)
  else if c = '+' then some 62
  else if c = '/' then some 63
  else none

/-- `base64.b64decode` restricted to correctly padded standard-alphabet
input, `none` otherwise (Python raises `binascii.Error` there). -/
def b64decodeGroups : List Char → Option (List Nat)
  | [] => some []
  | a :: b :: c :: d :: rest =>
    match b64CharVal a, b64CharVal b with
    | some va, some vb =>
      if c = '=' ∧ d = '=' ∧ rest = [] then
        some [(va <<< 2 ||| vb >>> 4) % 256]
      else
        match b64CharVal c with
        | some vc =>
          if d = '=' ∧ rest = [] then
            some ((va <<< 2 ||| vb >>> 4) % 256 :: [(vb <<< 4 ||| vc >>> 2) % 256])
          else
            match b64CharVal d, b64decodeGroups rest with
            | some vd, some tail =>
              some ((va <<< 2 ||| vb >>> 4) % 256 :: (vb <<< 4 ||| vc >>> 2) % 256 ::
                    (vc <<< 6 ||| vd) % 256 :: tail)
            | _, _ => none
        | none => none
    | _, _ => none
  | _ => none

def b64decode (s : String) : Option (List Nat) := b64decodeGroups s.toList

end TC

namespace TC

/-! ### Merkle commitment (`app/ledger/merkle.py`) -/

/-- `EMPTY_ROOT = sha256(b"").hexdigest()`. -/
def EMPTY_ROOT : String := sha256Hex []

/-- `hash_pair(l, r) = sha256(bytes.fromhex(l) + bytes.fromhex(r)).hexdigest()`. -/
def hash_pair (l r : String) : String := sha256Hex (hexToBytes l.toList ++ hexToBytes r.toList)

structure ProofNode where
  direction : String
  hash : String
deriving DecidableEq

/-- Odd levels duplicate their last node (`current + [current[-1]]`). -/
def padEven (cur : List String) : List String :=
  if cur.length % 2 == 1 then cur ++ [(cur.getLast?).getD ""] else cur

/-- One pass of `hash_pair(current[i], current[i+1])` over an even level. -/
def pairUp : List String → List String
  | a :: b :: rest => hash_pair a b :: pairUp rest
  | _ => []

/-- The next level of `MerkleTree.__init__`'s while-loop. -/
def nextLevel (cur : List String) : List String := pairUp (padEven cur)

theorem pairUp_length (l : List String) : (pairUp l).length = l.length / 2 := by
  match l with
  | [] => simp [pairUp]
  | [_] => simp [pairUp]
  | a :: b :: rest =>
    simp only [pairUp, List.length_cons]
    rw [pairUp_length rest]
    omega

theorem padEven_length (cur : List String) :
    (padEven cur).length = cur.length + cur.length % 2 := by
  by_cases h : cur.length % 2 = 1
  · simp [padEven, h]
  · simp only [padEven, beq_iff_eq, h, if_false, if_neg]
    omega

theorem nextLevel_length (cur : List String) :
    (nextLevel cur).length = (cur.length + cur.length % 2) / 2 := by
  rw [nextLevel, pairUp_length, padEven_length]

theorem nextLevel_lt (cur : List String) (h : 2 ≤ cur.length) :
    (nextLevel cur).length < cur.length := by
  rw [nextLevel_length]
  omega

/-- `MerkleTree(...).root`: iterate the level construction until one node is
left; the empty tree has root `EMPTY_ROOT`. -/
def treeRoot (cur : List String) : String :=
  if cur.length ≤ 1 then cur.headD EMPTY_ROOT
  else treeRoot (nextLevel cur)
termination_by cur.length
decreasing_by exact nextLevel_lt cur (by omega)

/-- `MerkleTree(...).proof(index)`: sibling directions and hashes from leaf
level to root, padding each odd level like the constructor does. -/
def buildProof (cur : List String) (idx : Nat) : List ProofNode :=
  if cur.length ≤ 1 then []
  else
    (if idx % 2 == 1 then ProofNode.mk "left" ((padEven cur).getD (idx - 1) "")
     else ProofNode.mk "right" ((padEven cur).getD (idx + 1) "")) ::
    buildProof (nextLevel cur) (idx / 2)
termination_by cur.length
decreasing_by exact nextLevel_lt cur (by omega)

/-- `verify_proof(leaf_hash, proof, root)`: replay `hash_pair` along the
indicated directions and compare with the root. -/
def verify_proof (leaf : String) : List ProofNode → String → Bool
  | [], root => leaf == root
  | node :: rest, root =>
    if node.direction == "left" then verify_proof (hash_pair node.hash leaf) rest root
    else if node.direction == "right" then verify_proof (hash_pair leaf node.hash) rest root
    else false

theorem padEven_getD (cur : List String) (i : Nat) (d : String) (h : i < cur.length) :
    (padEven cur).getD i d = cur.getD i d := by
  by_cases hodd : cur.length % 2 = 1
  · simp only [padEven, hodd, beq_self_eq_true, if_true]
    rw [List.getD_append _ _ _ _ h]
  · simp [padEven, hodd]

theorem pairUp_getD (l : List String) (k : Nat) (d : String) (h : 2 * k + 1 < l.length) :
    (pairUp l).getD k d = hash_pair (l.getD (2 * k) d) (l.getD (2 * k + 1) d) := by
  match l, k with
  | a :: b :: rest, 0 => simp [pairUp]
  | a :: b :: rest, k + 1 =>
    have hlt : 2 * k + 1 < rest.length := by
      simp only [List.length_cons] at h
      omega
    have e1 : 2 * (k + 1) = 2 * k + 1 + 1 := by omega
    have e2 : 2 * (k + 1) + 1 = 2 * k + 1 + 1 + 1 := by omega
    rw [e2, e1]
    simp only [pairUp, List.getD_cons_succ]
    exact pairUp_getD rest k d hlt
  | [], k => simp at h
  | [a], k =>
    simp only [List.length_cons, List.length_nil] at h
    omega

end TC

namespace TC

theorem padEven_length_even (cur : List String) : (padEven cur).length % 2 = 0 := by
  rw [padEven_length]
  omega

/-- Soundness of the generated inclusion proofs: for every level and every
in-range index, replaying the proof from that leaf reaches the tree root. -/
theorem verify_buildProof (cur : List String) (idx : Nat) (h : idx < cur.length) :
    verify_proof (cur.getD idx "") (buildProof cur idx) (treeRoot cur) = true := by
  by_cases hl : cur.length ≤ 1
  · match cur, idx with
    | [], _ => simp at h
    | [a], 0 =>
      rw [buildProof, treeRoot]
      simp [verify_proof]
    | [a], n + 1 =>
      simp only [List.length_cons, List.length_nil] at h
      omega
    | a :: b :: t, _ =>
      simp only [List.length_cons] at hl
      omega
  · have h2 : 2 ≤ cur.length := by omega
    have hroot : treeRoot cur = treeRoot (nextLevel cur) := by
      conv_lhs => rw [treeRoot]
      rw [if_neg (by omega)]
    have hbp : buildProof cur idx =
        (if idx % 2 == 1 then ProofNode.mk "left" ((padEven cur).getD (idx - 1) "")
         else ProofNode.mk "right" ((padEven cur).getD (idx + 1) "")) ::
        buildProof (nextLevel cur) (idx / 2) := by
      conv_lhs => rw [buildProof]
      rw [if_neg (by omega)]
    rw [hbp, hroot]
    have hpadlen : (padEven cur).length = cur.length + cur.length % 2 := padEven_length cur
    have hpadeven : (padEven cur).length % 2 = 0 := padEven_length_even cur
    have hx : cur.getD idx "" = (padEven cur).getD idx "" := (padEven_getD cur idx "" h).symm
    have hnext : (nextLevel cur).length = (cur.length + cur.length % 2) / 2 :=
      nextLevel_length cur
    have hidx2 : idx / 2 < (nextLevel cur).length := by
      rw [hnext]
      omega
    have ih := verify_buildProof (nextLevel cur) (idx / 2) hidx2
    by_cases hodd : idx % 2 = 1
    · rw [if_pos (by simpa using hodd)]
      simp only [verify_proof]
      rw [if_pos (by decide)]
      have hb : 2 * (idx / 2) + 1 < (padEven cur).length := by omega
      have e0 : idx - 1 = 2 * (idx / 2) := by omega
      have e1 : idx = 2 * (idx / 2) + 1 := by omega
      rw [hx, e0]
      conv_lhs =>
        rw [show (padEven cur).getD idx "" = (padEven cur).getD (2 * (idx / 2) + 1) "" from by
          rw [← e1]]
      rw [← pairUp_getD (padEven cur) (idx / 2) "" hb]
      exact ih
    · rw [if_neg (by simpa using hodd)]
      simp only [verify_proof]
      rw [if_neg (by decide), if_pos (by decide)]
      have hb : 2 * (idx / 2) + 1 < (padEven cur).length := by omega
      have e0 : idx = 2 * (idx / 2) := by omega
      have e1 : idx + 1 = 2 * (idx / 2) + 1 := by omega
      rw [hx, e1]
      conv_lhs =>
        rw [show (padEven cur).getD idx "" = (padEven cur).getD (2 * (idx / 2)) "" from by
          rw [← e0]]
      rw [← pairUp_getD (padEven cur) (idx / 2) "" hb]
      exact ih
termination_by cur.length
decreasing_by all_goals exact nextLevel_lt cur (by omega)

end TC

namespace TC

/-! ### Small string helpers shared by the governance and reveal layers -/

def isSpaceChar (c : Char) : Bool := c == ' ' || c == '\t' || c == '\n' || c == '\r'

/-- Python `str.strip()` for the ASCII whitespace repertoire. -/
def stripStr (s : String) : String :=
  String.mk (((s.toList.dropWhile isSpaceChar).reverse.dropWhile isSpaceChar).reverse)

def splitOnDotGo (acc : List Char) : List Char → List String
  | [] => [String.mk acc.reverse]
  | c :: rest =>
    if c = '.' then String.mk acc.reverse :: splitOnDotGo [] rest
    else splitOnDotGo (c :: acc) rest

/-- `path.split(".")`. -/
def splitOnDot (s : String) : List String := splitOnDotGo [] s.toList

def startsL : List Char → List Char → Bool
  | [], _ => true
  | _ :: _, [] => false
  | a :: as, b :: bs => a == b && startsL as bs

def containsL (needle : List Char) : List Char → Bool
  | [] => needle.isEmpty
  | b :: bs => startsL needle (b :: bs) || containsL needle bs

/-- Python `needle in hay` on strings (substring test). -/
def strContains (hay needle : String) : Bool := containsL needle.toList hay.toList

def dedupSorted : List String → List String
  | [] => []
  | [x] => [x]
  | x :: y :: rest => if x == y then dedupSorted (y :: rest) else x :: dedupSorted (y :: rest)

/-- `sorted(set(xs))` for string sets. -/
def sortedSet (xs : List String) : List String := dedupSorted (sortBy strLeb xs)

def pySquote : String := String.mk [Char.ofNat 39]

/-- Python `repr` of a list of strings, as interpolated into f-strings. -/
def pyListRepr (xs : List String) : String :=
  "[" ++ joinCommaSpace (xs.map (fun s => pySquote ++ s ++ pySquote)) ++ "]"
where
  joinCommaSpace : List String → String
    | [] => ""
    | [x] => x
    | x :: rest => x ++ ", " ++ joinCommaSpace rest

/-! ### Governance engine (`app/governance/policy_engine.py`) -/

/-- A rule predicate; `value` is `.null` when the Python field is `None`. -/
structure RuleCondition where
  field : String
  op : String
  value : Value

structure GovernanceRule where
  rule_id : String
  action : String
  description : String
  conditions : List RuleCondition
  required_actor_types : List String
  required_signer : String
  approval_chain : List String

structure GovernancePolicy where
  policy_id : String
  version : String
  rules : List GovernanceRule

def conditionValue (c : RuleCondition) : Value :=
  .obj [("field", .str c.field), ("op", .str c.op), ("value", c.value)]

def ruleValue (r : GovernanceRule) : Value :=
  .obj [("rule_id", .str r.rule_id), ("action", .str r.action),
        ("description", .str r.description),
        ("conditions", .arr (r.conditions.map conditionValue)),
        ("required_actor_types", .arr (r.required_actor_types.map .str)),
        ("required_signer", .str r.required_signer),
        ("approval_chain", .arr (r.approval_chain.map .str))]

def policyValue (p : GovernancePolicy) : Value :=
  .obj [("policy_id", .str p.policy_id), ("version", .str p.version),
        ("rules", .arr (p.rules.map ruleValue))]

/-- `GovernancePolicy.policy_hash()` = `sha256_hex(self.model_dump())`. -/
def policyHash (p : GovernancePolicy) : String := sha256HexV (policyValue p)

/-- `_get_path`: walk dotted path; a missing key yields Python `None`,
collapsed onto `.null` (the code treats an explicit JSON null and a missing
key identically at every use site). -/
def getPathGo : Value → List String → Value
  | current, [] => current
  | current, part :: rest =>
    match current with
    | .obj kvs =>
      match lookupKV kvs part with
      | some v => getPathGo v rest
      | none => .null
    | _ => .null

def getPath (data : Value) (path : String) : Value := getPathGo data (splitOnDot path)

/-- Python `<` on context values: int/int and str/str compare; ordering
between other types raises `TypeError` in Python and is never exercised by
any embedded rule set (modelled as `false`). -/
def valueLtb : Value → Value → Bool
  | .int a, .int b => a < b
  | .str a, .str b => strLtb a b
  | _, _ => false

def valueLeb : Value → Value → Bool
  | .int a, .int b => a ≤ b
  | .str a, .str b => strLeb a b
  | _, _ => false

/-- Python `elem in coll` for the `in`/`contains` operators; `coll or []`
turns `None` into the empty collection, and membership in a string is the
substring test. -/
def valueMem (elem coll : Value) : Bool :=
  match coll with
  | .arr xs => xs.any (fun x => valueEq elem x)
  | .str s =>
    match elem with
    | .str e => strContains s e
    | _ => false
  | _ => false

/-- `_matches(condition, context)`. -/
def condMatches (condition : RuleCondition) (context : Value) : Bool :=
  let left := getPath context condition.field
  let right := condition.value
  if condition.op == "exists" then !(valueEq left .null)
  else if condition.op == "eq" then valueEq left right
  else if condition.op == "ne" then !(valueEq left right)
  else if condition.op == "gt" then !(valueEq left .null) && valueLtb right left
  else if condition.op == "gte" then !(valueEq left .null) && valueLeb right left
  else if condition.op == "lt" then !(valueEq left .null) && valueLtb left right
  else if condition.op == "lte" then !(valueEq left .null) && valueLeb left right
  else if condition.op == "in" then valueMem left right
  else if condition.op == "contains" then valueMem right left
  else false

/-- `int(x)` for the values `_derive_values` feeds it; validated payloads
only carry ints (and Python bools coerce 0/1); other types raise there and
are never exercised (modelled by 0 via `getD`). -/
def intOfValue : Value → Option Int
  | .int n => some n
  | .bool b => some (if b then 1 else 0)
  | _ => none

/-- `_derive_values(action, payload)`. -/
def deriveValues (action : String) (payload : Value) : Value :=
  let base : List (String × Value) :=
    if action == "event:ProcurementOrdered" then
      let items :=
        match getKey payload "items" with
        | some (.arr xs) => xs
        | _ => []
      let total := items.foldl
        (fun acc item =>
          acc + ((getKey item "qty").bind intOfValue).getD 0 *
            ((getKey item "unit_cost").bind intOfValue).getD 0) 0
      [("procurement_total_cents", Value.int total)]
    else []
  match getKey payload "amount" with
  | some v =>
    match intOfValue v with
    | some n => .obj (base ++ [("amount_cents", Value.int n)])
    | none => .obj base
  | none => .obj base

structure GovernanceDecision where
  allowed : Bool
  policy_id : String
  policy_version : String
  policy_hash : String
  action : String
  matched_rule_id : Option String
  reason : String

/-- `GovernanceDecision.to_audit_dict()`. -/
def decisionValue (d : GovernanceDecision) : Value :=
  .obj [("allowed", .bool d.allowed), ("policy_id", .str d.policy_id),
        ("policy_version", .str d.policy_version), ("policy_hash", .str d.policy_hash),
        ("action", .str d.action),
        ("matched_rule_id", match d.matched_rule_id with | some r => .str r | none => .null),
        ("reason", .str d.reason)]

/-- The rule loop of `GovernancePolicyEngine.evaluate`; falling off the end
is the unconditional default-allow of the source. -/
def evalRules (p : GovernancePolicy) (phash action actor_type signer_role : String)
    (context : Value) (effective_approvals : List String) :
    List GovernanceRule → GovernanceDecision
  | [] =>
    ⟨true, p.policy_id, p.version, phash, action, none, "allowed by default (no matched rule)"⟩
  | rule :: rest =>
    if !(rule.action == action) then
      evalRules p phash action actor_type signer_role context effective_approvals rest
    else if !rule.conditions.isEmpty &&
        !(rule.conditions.all (fun c => condMatches c context)) then
      evalRules p phash action actor_type signer_role context effective_approvals rest
    else if !rule.required_actor_types.isEmpty &&
        !(rule.required_actor_types.contains actor_type) then
      ⟨false, p.policy_id, p.version, phash, action, some rule.rule_id,
       "actor_type=" ++ actor_type ++ " not allowed by rule=" ++ rule.rule_id⟩
    else if !(rule.required_signer == "any") && !(signer_role == rule.required_signer) then
      ⟨false, p.policy_id, p.version, phash, action, some rule.rule_id,
       "signer_role=" ++ signer_role ++ " must be " ++ rule.required_signer⟩
    else
      let missing := rule.approval_chain.filter (fun x => !(effective_approvals.contains x))
      if !missing.isEmpty then
        ⟨false, p.policy_id, p.version, phash, action, some rule.rule_id,
         "missing approvals: " ++ pyListRepr missing⟩
      else
        ⟨true, p.policy_id, p.version, phash, action, some rule.rule_id,
         "allowed by matched rule"⟩

/-- `GovernancePolicyEngine.evaluate`. -/
def evaluate (p : GovernancePolicy) (action actor_type signer_role : String)
    (payload tool_trace : Value) (approvals : List String) : GovernanceDecision :=
  let effective := sortedSet (approvals ++ [signer_role] ++
    (if actor_type == "agent" || actor_type == "human" || actor_type == "auditor" then
      [actor_type] else []))
  let context : Value := .obj
    [("action", .str action), ("actor_type", .str actor_type),
     ("signer_role", .str signer_role), ("payload", payload), ("tool_trace", tool_trace),
     ("approvals", .arr (effective.map .str)), ("derived", deriveValues action payload)]
  evalRules p (policyHash p) action actor_type signer_role context effective p.rules

/-- `DEFAULT_GOVERNANCE_POLICY` (fields in constructor order: rule_id,
action, description, conditions, required_actor_types, required_signer,
approval_chain). -/
def DEFAULT_GOVERNANCE_POLICY : GovernancePolicy :=
  ⟨"governance_policy_v1", "1.0.0",
   [⟨"procurement_gt_5000_human", "event:ProcurementOrdered",
     "Single procurement above $5000 requires human signature",
     [⟨"derived.procurement_total_cents", "gt", .int 500000⟩],
     ["human"], "human", ["human"]⟩,
    ⟨"bank_transfer_human_only", "tool:payment.bank_transfer",
     "High-risk bank transfer requires human signature",
     [], ["human"], "human", ["human"]⟩,
    ⟨"tax_submit_human_only", "tool:tax.submit_final",
     "Final tax submission requires human signature",
     [], ["human"], "human", ["human"]⟩,
    ⟨"major_contract_human_only", "tool:esign.sign_contract_final",
     "Major contract final signature requires human",
     [], ["human"], "human", ["human"]⟩]⟩

end TC

namespace TC

/-! ### Signing (`app/ledger/signing.py`)

The Ed25519 primitive lives in the external `pynacl` library, outside this
repository. `sign_object` is therefore taken as an arbitrary function
parameter in every theorem (no settled claim depends on signature bytes),
and verification is modelled only down to the one property every Ed25519
verifier has and that the embedded results rely on: a detached signature is
exactly 64 bytes, so shorter or longer byte strings never verify. -/

/-- Modelled from the spec: Ed25519 signature verification (`pynacl`
`VerifyKey.verify`, external to `src/`). The model is an over-approximation
that accepts any 64-byte signature; it is used in this development only for
its rejection side (wrong-length signatures are rejected by every real
Ed25519 verifier, so a `false` here is sound). -/
def ed25519VerifyModeled (_public_key _msg sig : List Nat) : Bool :=
  sig.length == 64

/-- `verify_object(value, signature_b64, public_key_b64)` with the Ed25519
primitive modelled as above; a `none` from `b64decode` is Python's
`binascii.Error`, surfaced as a non-verification. -/
def verify_object (value : Value) (signature_b64 : String) (public_key_b64 : String) : Bool :=
  match b64decode signature_b64 with
  | none => false
  | some sig =>
    ed25519VerifyModeled ((b64decode public_key_b64).getD []) (canonicalBytes value) sig

/-! ### Ledger store (`app/ledger/store.py`, `app/core/key_management.py`) -/

structure Actor where
  type : String
  id : String

/-- `EventCreateRequest`; `occurred_at` carries the canonical RFC3339 text
of the instant the caller supplied (or the creation time drawn when absent —
time is an input of the embedding). -/
structure EventCreateRequest where
  event_type : String
  actor : Actor
  policy_id : String
  payload : Value
  tool_trace : Value
  occurred_at : String

/-- A persisted `LedgerEventModel` row; `seq_id` is the 1-based position in
the store's row list. -/
structure LedgerRow where
  event_id : String
  event_type : String
  occurred_at : String
  actor_type : String
  actor_id : String
  policy_id : String
  payload : Value
  tool_trace : Value
  prev_hash : String
  event_hash : String
  signature : String

def zeros64 : String := String.mk (List.replicate 64 '0')

/-- `LedgerStore._latest_event_hash`. -/
def latestEventHash (rows : List LedgerRow) : String :=
  match rows.getLast? with
  | some r => r.event_hash
  | none => zeros64

def actorValue (a : Actor) : Value := .obj [("type", .str a.type), ("id", .str a.id)]

/-- The pre-signature view signed in `LedgerStore.append` (all event fields
except `signature`). -/
def signPayloadValue (event_id event_type occurred_at : String) (actor : Actor)
    (policy_id : String) (payload tool_trace : Value) (prev_hash : String) : Value :=
  .obj [("event_id", .str event_id), ("event_type", .str event_type),
        ("occurred_at", .str occurred_at), ("actor", actorValue actor),
        ("policy_id", .str policy_id), ("payload", payload),
        ("tool_trace", tool_trace), ("prev_hash", .str prev_hash)]

/-- The signed subview of a stored row, as rebuilt by
`default_scenario._verify_event_signature`. -/
def rowSignView (e : LedgerRow) : Value :=
  signPayloadValue e.event_id e.event_type e.occurred_at ⟨e.actor_type, e.actor_id⟩
    e.policy_id e.payload e.tool_trace e.prev_hash

/-- `LedgerStore._event_hash_input` / the raw dict of `verify_chain`: the
full event view including the signature. -/
def rowHashView (e : LedgerRow) : Value :=
  setKey (rowSignView e) "signature" (.str e.signature)

/-- `expected_signer_role` from `app/core/key_management.py`. -/
def expected_signer_role (actor_type : String) : String :=
  if actor_type == "human" then "human"
  else if actor_type == "auditor" then "auditor"
  else "agent"

/-- Python `str(x)` for the approval entries (strings at all call sites). -/
def strOfValue : Value → String
  | .str s => s
  | .int n => toString n
  | .bool b => if b then "True" else "False"
  | .null => "None"
  | _ => ""

/-- `(request.tool_trace or {}).get("approvals", [])` with the list check. -/
def approvalsOfTrace (tool_trace : Value) : List String :=
  match getKey tool_trace "approvals" with
  | some (.arr xs) => xs.map strOfValue
  | _ => []

inductive AppendError where
  | policyEnforcement (reason : String)
deriving DecidableEq

/-- `LedgerStore.append(request, signer)`. `signFn` is the external Ed25519
signing primitive (`sign_object`); `event_id` is the UUID drawn for the new
event. Payload schema validation (`app/ledger/events.py`) raises before any
state is touched and is not embedded; appended rows carry validated
payloads. -/
def append (signFn : Value → String → String) (rows : List LedgerRow)
    (req : EventCreateRequest) (signer : String) (event_id : String) :
    Except AppendError (List LedgerRow × LedgerRow) :=
  if !(signer == expected_signer_role req.actor.type) then
    .error (.policyEnforcement ("actor_type=" ++ req.actor.type ++ " requires signer_role=" ++
      expected_signer_role req.actor.type ++ ", got=" ++ signer))
  else
    let approvals := approvalsOfTrace req.tool_trace
    let decision := evaluate DEFAULT_GOVERNANCE_POLICY ("event:" ++ req.event_type)
      req.actor.type signer req.payload req.tool_trace approvals
    if !decision.allowed then .error (.policyEnforcement decision.reason)
    else
      let prev_hash := latestEventHash rows
      let tool_trace2 := setKey req.tool_trace "governance" (decisionValue decision)
      let sign_payload := signPayloadValue event_id req.event_type req.occurred_at req.actor
        req.policy_id req.payload tool_trace2 prev_hash
      let signature := signFn sign_payload signer
      let event_hash := sha256HexV (setKey sign_payload "signature" (.str signature))
      let row : LedgerRow := ⟨event_id, req.event_type, req.occurred_at, req.actor.type,
        req.actor.id, req.policy_id, req.payload, tool_trace2, prev_hash, event_hash, signature⟩
      .ok (rows ++ [row], row)

/-- Fold a batch of append calls, stopping at the first failure
(`(request, signer, event_id)` triples). -/
def appendAll (signFn : Value → String → String) :
    List LedgerRow → List (EventCreateRequest × String × String) →
    Except AppendError (List LedgerRow)
  | rows, [] => .ok rows
  | rows, (req, signer, event_id) :: rest =>
    match append signFn rows req signer event_id with
    | .error e => .error e
    | .ok (rows2, _) => appendAll signFn rows2 rest

/-- The walk of `LedgerStore.verify_chain`, carrying the expected
predecessor hash. -/
def verifyChainGo (prev : String) : List LedgerRow → Bool
  | [] => true
  | e :: rest =>
    if !(e.prev_hash == prev) then false
    else if !(sha256HexV (rowHashView e) == e.event_hash) then false
    else verifyChainGo e.event_hash rest

/-- `LedgerStore.verify_chain()`. -/
def verify_chain (rows : List LedgerRow) : Bool := verifyChainGo zeros64 rows

end TC

namespace TC

/-! ### Inventory projection (`app/domain/inventory/projections.py`)

Projection input events carry the payload shapes enforced by the event
schema (`app/ledger/events.py`): every row replayed by the projection was
validated at append time, so the typed constructors below are exactly the
dictionaries the projection reads. -/

/-- An `InventoryViewModel` row. -/
structure Lot where
  sku : String
  batch_id : String
  qty_on_hand : Int
  expiry_date : Option String
  unit_cost_cents : Int
  updated_at : String
deriving DecidableEq

/-- An item of a validated `GoodsReceived` payload (`ItemReceivedModel`). -/
structure ReceivedItem where
  sku : String
  qty : Int
  expiry_date : Option String
  unit_cost : Option Int
deriving DecidableEq

/-- An item of a validated `ProcurementOrdered` payload (`ItemCostModel`). -/
structure CostItem where
  sku : String
  qty : Int
  unit_cost : Int
deriving DecidableEq

structure ShipItem where
  sku : String
  qty : Int
deriving DecidableEq

structure AdjustItem where
  sku : String
  qty_delta : Int
  batch_id : Option String
  unit_cost : Option Int
deriving DecidableEq

/-- The ledger events the inventory projection reads (plus `other` for the
kinds it ignores); each constructor carries `event_id` and the occurrence
instant text. -/
inductive InvEvent where
  | procurementOrdered (event_id occurred_at : String) (procurement_id : Option String)
      (items : List CostItem)
  | goodsReceived (event_id occurred_at : String) (procurement_id : String)
      (batch_id : String) (items : List ReceivedItem) (qc_passed : Bool)
  | shipmentDispatched (event_id occurred_at : String) (order_id : String)
      (items : List ShipItem)
  | inventoryAdjusted (event_id occurred_at : String) (reason : String)
      (items : List AdjustItem)
  | other (event_id occurred_at : String)
deriving DecidableEq

/-- `_procurement_unit_cost`: scan `ProcurementOrdered` events in descending
`seq_id` order for the procurement and sku (the query sees the whole ledger
table, so the full event list is passed). -/
def procurementUnitCost (allEvents : List InvEvent) (procurement_id sku : String) : Int :=
  go (allEvents.reverse)
where
  goItems : List CostItem → Option Int
    | [] => none
    | item :: rest => if item.sku == sku then some item.unit_cost else goItems rest
  go : List InvEvent → Int
    | [] => 0
    | .procurementOrdered _ _ pid items :: rest =>
      if (match pid with | some p => p == procurement_id | none => false) then
        match goItems items with
        | some c => c
        | none => go rest
      else go rest
    | _ :: rest => go rest

/-- `_upsert_batch`: find-or-create the `(sku, batch_id)` lot, add the
delta, overwrite `expiry_date` / `unit_cost` when the incoming values are
truthy, and reject negative stock. The error case mirrors the raised
`ValueError` (the surrounding transaction is rolled back, so no state is
returned with it). -/
def findLot (lots : List Lot) (sku batch_id : String) : Option Lot :=
  match lots with
  | [] => none
  | l :: rest =>
    if l.sku == sku && l.batch_id == batch_id then some l else findLot rest sku batch_id

/-- The shared mutation body of `_upsert_batch`: add the quantity delta,
stamp `updated_at`, and overwrite `expiry_date` / `unit_cost_cents` when
the incoming values are truthy (non-empty string, non-zero int). -/
def lotMut (l : Lot) (qty_delta : Int) (expiry_date : Option String) (unit_cost : Int)
    (occurred_at : String) : Lot :=
  let withQty : Lot := ⟨l.sku, l.batch_id, l.qty_on_hand + qty_delta, l.expiry_date,
    l.unit_cost_cents, occurred_at⟩
  let withExpiry : Lot :=
    match expiry_date with
    | some e =>
      if e == "" then withQty
      else ⟨withQty.sku, withQty.batch_id, withQty.qty_on_hand, some e,
        withQty.unit_cost_cents, withQty.updated_at⟩
    | none => withQty
  if unit_cost == 0 then withExpiry
  else ⟨withExpiry.sku, withExpiry.batch_id, withExpiry.qty_on_hand, withExpiry.expiry_date,
    unit_cost, withExpiry.updated_at⟩

def upsertBatch (lots : List Lot) (sku batch_id : String) (qty_delta : Int)
    (expiry_date : Option String) (unit_cost : Int) (occurred_at : String) :
    Except String (List Lot) :=
  match findLot lots sku batch_id with
  | none =>
    let batch := lotMut ⟨sku, batch_id, 0, expiry_date, unit_cost, occurred_at⟩
      qty_delta expiry_date unit_cost occurred_at
    if batch.qty_on_hand < 0 then
      .error ("negative inventory prevented for " ++ sku ++ "/" ++ batch_id)
    else .ok (lots ++ [batch])
  | some _ =>
    let lots2 := lots.map (fun l =>
      if l.sku == sku && l.batch_id == batch_id then
        lotMut l qty_delta expiry_date unit_cost occurred_at
      else l)
    if (lots2.filter (fun l => l.sku == sku && l.batch_id == batch_id)).any
        (fun l => l.qty_on_hand < 0) then
      .error ("negative inventory prevented for " ++ sku ++ "/" ++ batch_id)
    else .ok lots2

/-- FIFO comparator of `_consume_fifo`'s query:
`ORDER BY expiry_date ASC, batch_id ASC` (nulls last, the PostgreSQL
default this store targets). Total because `(sku, batch_id)` is unique. -/
def fifoLe (a b : Lot) : Bool :=
  match a.expiry_date, b.expiry_date with
  | none, none => strLeb a.batch_id b.batch_id
  | none, some _ => false
  | some _, none => true
  | some x, some y => if x == y then strLeb a.batch_id b.batch_id else strLtb x y

/-- The consumption loop of `_consume_fifo` over the sorted candidate rows:
returns the updated rows, the accumulated cost, and the unconsumed
remainder. -/
def fifoWalk (occurred_at : String) : List Lot → Int → List Lot × Int × Int
  | rows, remaining =>
    match rows with
    | [] => ([], 0, remaining)
    | row :: rest =>
      if remaining ≤ 0 then (row :: rest, 0, remaining)
      else
        let take := min row.qty_on_hand remaining
        let row2 : Lot := ⟨row.sku, row.batch_id, row.qty_on_hand - take, row.expiry_date,
          row.unit_cost_cents, occurred_at⟩
        let out := fifoWalk occurred_at rest (remaining - take)
        (row2 :: out.1, take * row.unit_cost_cents + out.2.1, out.2.2)

/-- `_consume_fifo(session, sku, qty, occurred_at)`: consume `qty` of `sku`
across its positive lots in FIFO order and return the consumption cost.
Rows not selected by the query keep their place in the store; updated rows
are written back by key. -/
def consume_fifo (lots : List Lot) (sku : String) (qty : Int) (occurred_at : String) :
    Except String (List Lot × Int) :=
  let rows := sortBy fifoLe (lots.filter (fun l => l.sku == sku && 0 < l.qty_on_hand))
  let out := fifoWalk occurred_at rows qty
  if 0 < out.2.2 then .error ("negative inventory prevented for sku=" ++ sku)
  else
    let lots2 := lots.map (fun l =>
      match (out.1.filter (fun u => u.sku == l.sku && u.batch_id == l.batch_id)).head? with
      | some u => u
      | none => l)
    .ok (lots2, out.2.1)

/-- `consume_inventory_for_shipment`. -/
def consumeInventoryForShipment (lots : List Lot) (items : List ShipItem)
    (occurred_at : String) : Except String (List Lot × Int) :=
  match items with
  | [] => .ok (lots, 0)
  | item :: rest =>
    match consume_fifo lots item.sku item.qty occurred_at with
    | .error e => .error e
    | .ok (lots2, cost) =>
      match consumeInventoryForShipment lots2 rest occurred_at with
      | .error e => .error e
      | .ok (lots3, costRest) => .ok (lots3, cost + costRest)

/-- `GoodsReceived` item loop of `apply_inventory_event`. -/
def applyReceivedItems (allEvents : List InvEvent) (lots : List Lot)
    (procurement_id batch_id : String) (occurred_at : String) :
    List ReceivedItem → Except String (List Lot)
  | [] => .ok lots
  | item :: rest =>
    let unit_cost :=
      match item.unit_cost with
      | some c => if c == 0 then procurementUnitCost allEvents procurement_id item.sku else c
      | none => procurementUnitCost allEvents procurement_id item.sku
    match upsertBatch lots item.sku batch_id item.qty item.expiry_date unit_cost occurred_at with
    | .error e => .error e
    | .ok lots2 => applyReceivedItems allEvents lots2 procurement_id batch_id occurred_at rest

/-- `InventoryAdjusted` item loop of `apply_inventory_event`. -/
def applyAdjustItems (lots : List Lot) (occurred_at : String) :
    List AdjustItem → Except String (List Lot)
  | [] => .ok lots
  | item :: rest =>
    let batch_id :=
      match item.batch_id with
      | some b => if b == "" then "adjustment" else b
      | none => "adjustment"
    match upsertBatch lots item.sku batch_id item.qty_delta none 0 occurred_at with
    | .error e => .error e
    | .ok lots2 => applyAdjustItems lots2 occurred_at rest

/-- `apply_inventory_event(session, event) -> cost`: returns the updated
lots and the shipment consumption cost (0 for non-shipment events). -/
def applyInventoryEvent (allEvents : List InvEvent) (lots : List Lot) (e : InvEvent) :
    Except String (List Lot × Int) :=
  match e with
  | .goodsReceived _ occurred_at procurement_id batch_id items qc_passed =>
    if !qc_passed then .ok (lots, 0)
    else
      match applyReceivedItems allEvents lots procurement_id batch_id occurred_at items with
      | .error err => .error err
      | .ok lots2 => .ok (lots2, 0)
  | .shipmentDispatched _ occurred_at _ items =>
    consumeInventoryForShipment lots items occurred_at
  | .inventoryAdjusted _ occurred_at _ items =>
    match applyAdjustItems lots occurred_at items with
    | .error err => .error err
    | .ok lots2 => .ok (lots2, 0)
  | _ => .ok (lots, 0)

/-- `rebuild_inventory_view`: replay from empty, recording each
`ShipmentDispatched` cost under its `event_id` (the shipment-COGS map). -/
def rebuildInventoryView (allEvents : List InvEvent) :
    Except String (List Lot × List (String × Int)) :=
  go [] [] allEvents
where
  eventId : InvEvent → String
    | .procurementOrdered i _ _ _ => i
    | .goodsReceived i _ _ _ _ _ => i
    | .shipmentDispatched i _ _ _ => i
    | .inventoryAdjusted i _ _ _ => i
    | .other i _ => i
  isShipment : InvEvent → Bool
    | .shipmentDispatched _ _ _ _ => true
    | _ => false
  go (lots : List Lot) (costs : List (String × Int)) :
      List InvEvent → Except String (List Lot × List (String × Int))
    | [] => .ok (lots, costs)
    | e :: rest =>
      match applyInventoryEvent allEvents lots e with
      | .error err => .error err
      | .ok (lots2, cost) =>
        go lots2 (if isShipment e then costs ++ [(eventId e, cost)] else costs) rest

/-- Total on-hand quantity of a sku across lots. -/
def skuBalance (lots : List Lot) (sku : String) : Int :=
  (lots.filter (fun l => l.sku == sku)).foldl (fun acc l => acc + l.qty_on_hand) 0

/-- First recorded cost for an event id in the shipment-COGS map. -/
def costFor (costs : List (String × Int)) (event_id : String) : Option Int :=
  match costs with
  | [] => none
  | kv :: rest => if kv.1 == event_id then some kv.2 else costFor rest event_id

end TC

namespace TC

/-! ### Orders projection (`app/domain/orders/projections.py`) -/

structure OrderItem where
  sku : String
  qty : Int
  unit_price : Int
deriving DecidableEq

/-- An `OrderViewModel` row. -/
structure OrderView where
  order_id : String
  customer_ref : Option String
  channel : Option String
  region : Option String
  status : String
  order_total_cents : Int
  paid_cents : Int
  refunded_cents : Int
  shipped_qty : Int
  line_items : List OrderItem
  updated_at : String
deriving DecidableEq

/-- The ledger events the orders projection reads (validated payloads). -/
inductive OrderEvent where
  | orderPlaced (occurred_at order_id : String) (customer_ref channel region : Option String)
      (items : List OrderItem)
  | paymentCaptured (occurred_at order_id : String) (amount : Int)
  | shipmentDispatched (occurred_at order_id : String) (items : List ShipItem)
  | refundIssued (occurred_at order_id : String) (amount : Int)
  | other (occurred_at : String)
deriving DecidableEq

def findOrder (orders : List OrderView) (oid : String) : Option OrderView :=
  match orders with
  | [] => none
  | o :: rest => if o.order_id == oid then some o else findOrder rest oid

/-- The fresh row `_upsert_order` inserts when the order is unknown. -/
def defaultOrder (oid occurred_at : String) : OrderView :=
  ⟨oid, none, none, none, "placed", 0, 0, 0, 0, [], occurred_at⟩

/-- `_upsert_order`: the view to mutate (found or freshly inserted). -/
def upsertOrder (orders : List OrderView) (oid occurred_at : String) : OrderView :=
  match findOrder orders oid with
  | some o => o
  | none => defaultOrder oid occurred_at

/-- Write the mutated view back (replace by `order_id`, insert if new). -/
def storeOrder (orders : List OrderView) (o : OrderView) : List OrderView :=
  match findOrder orders o.order_id with
  | some _ => orders.map (fun x => if x.order_id == o.order_id then o else x)
  | none => orders ++ [o]

/-- `apply_order_event(session, event)`. -/
def applyOrderEvent (orders : List OrderView) : OrderEvent → List OrderView
  | .orderPlaced now oid cref chan reg items =>
    let o := upsertOrder orders oid now
    let total := items.foldl (fun acc i => acc + i.qty * i.unit_price) 0
    storeOrder orders
      ⟨oid, cref, chan, reg, "placed", total, o.paid_cents, o.refunded_cents,
       o.shipped_qty, items, now⟩
  | .paymentCaptured now oid amount =>
    let o := upsertOrder orders oid now
    let paid := o.paid_cents + amount
    storeOrder orders
      ⟨o.order_id, o.customer_ref, o.channel, o.region,
       (if 0 < paid then "paid" else o.status), o.order_total_cents, paid,
       o.refunded_cents, o.shipped_qty, o.line_items, now⟩
  | .shipmentDispatched now oid items =>
    let o := upsertOrder orders oid now
    let shipped := o.shipped_qty + items.foldl (fun acc i => acc + i.qty) 0
    storeOrder orders
      ⟨o.order_id, o.customer_ref, o.channel, o.region, "shipped", o.order_total_cents,
       o.paid_cents, o.refunded_cents, shipped, o.line_items, now⟩
  | .refundIssued now oid amount =>
    let o := upsertOrder orders oid now
    let refunded := o.refunded_cents + amount
    storeOrder orders
      ⟨o.order_id, o.customer_ref, o.channel, o.region,
       (if 0 < refunded then "refunded" else o.status), o.order_total_cents, o.paid_cents,
       refunded, o.shipped_qty, o.line_items, now⟩
  | .other _ => orders

/-- `rebuild_orders_view`: replay from empty in `seq_id` order. -/
def rebuildOrdersView (events : List OrderEvent) : List OrderView :=
  events.foldl applyOrderEvent []

/-- The ranking `refunded > shipped > paid > placed` named by the spec. -/
def statusRank (s : String) : Nat :=
  if s == "refunded" then 3
  else if s == "shipped" then 2
  else if s == "paid" then 1
  else 0

/-! ### Disclosure commitments (`app/disclosure/commitment.py`) and the
proof endpoint (`app/api/routes_disclosure.py::get_disclosure_proof`) -/

/-- `proof_lookup_key(metric_key, group)`. -/
def proofLookupKey (metric_key : String) (group : Value) : String :=
  metric_key ++ "|" ++ canonicalJson group

def lookupAssoc {α : Type} (m : List (String × α)) (k : String) : Option α :=
  match m with
  | [] => none
  | kv :: rest => if kv.1 == k then some kv.2 else lookupAssoc rest k

structure GroupedRow where
  metric_key : String
  group : Value
  value : Int

/-- A commitment leaf; `detail_root` is present only in
selective-disclosure-ready runs (the key is then part of the hashed dict). -/
structure LeafPayload where
  metric_key : String
  group : Value
  period_start : String
  period_end : String
  value : Int
  policy_id : String
  policy_hash : String
  detail_root : Option String

def leafValue (l : LeafPayload) : Value :=
  .obj ([("metric_key", .str l.metric_key), ("group", l.group),
         ("period", .obj [("start", .str l.period_start), ("end", .str l.period_end)]),
         ("value", .int l.value), ("policy_id", .str l.policy_id),
         ("policy_hash", .str l.policy_hash)] ++
        (match l.detail_root with | some r => [("detail_root", Value.str r)] | none => []))

/-- `hash_leaf_payload(payload)`. -/
def hash_leaf_payload (v : Value) : String := sha256HexV v

/-- `_sort_key`: lexicographic `(metric_key, canonical(group), period.start,
period.end)`. -/
def leafSortLe (a b : LeafPayload) : Bool :=
  lexStr a.metric_key b.metric_key
    (lexStr (canonicalJson a.group) (canonicalJson b.group)
      (lexStr a.period_start b.period_start (strLeb a.period_end b.period_end)))
where
  lexStr (x y : String) (rest : Bool) : Bool := if x == y then rest else strLtb x y

structure DetailEntry where
  detail_root : String
  event_hashes : List String
  event_proofs : List (String × List ProofNode)
deriving DecidableEq

structure ProofItem where
  leaf_hash : String
  leaf_payload : LeafPayload
  siblings : List ProofNode
  root_summary : String
  position : Nat

structure CommitmentResult where
  root_summary : String
  root_details : Option String
  leaf_payloads : List LeafPayload
  proof_index : List (String × ProofItem)
  detail_index : List (String × DetailEntry)

/-- `build_commitments(...)`: base leaves from the scalar metrics (empty
group) then the grouped rows, sorted by `_sort_key`; detail sub-trees and
`detail_root` fields only for `selective_disclosure_ready`; a per-leaf proof
index over the summary tree, always. -/
def build_commitments (metrics : List (String × Int)) (grouped_metrics : List GroupedRow)
    (policy_id policy_hash : String) (period_start period_end : String)
    (proof_level : String) (detail_event_map : List (String × List String)) :
    CommitmentResult :=
  let base1 : List LeafPayload := metrics.map (fun kv =>
    ⟨kv.1, .obj [], period_start, period_end, kv.2, policy_id, policy_hash, none⟩)
  let base2 : List LeafPayload := grouped_metrics.map (fun row =>
    ⟨row.metric_key, row.group, period_start, period_end, row.value, policy_id,
     policy_hash, none⟩)
  let sortedLeafs := sortBy leafSortLe (base1 ++ base2)
  let selective := proof_level == "selective_disclosure_ready"
  let withDetail : List LeafPayload :=
    if selective then
      sortedLeafs.map (fun leaf =>
        let dh := sortBy strLeb ((lookupAssoc detail_event_map
          (proofLookupKey leaf.metric_key leaf.group)).getD [])
        ⟨leaf.metric_key, leaf.group, leaf.period_start, leaf.period_end, leaf.value,
         leaf.policy_id, leaf.policy_hash, some (treeRoot dh)⟩)
    else sortedLeafs
  let detail_index : List (String × DetailEntry) :=
    if selective then
      sortedLeafs.map (fun leaf =>
        let lookup := proofLookupKey leaf.metric_key leaf.group
        let dh := sortBy strLeb ((lookupAssoc detail_event_map lookup).getD [])
        (lookup, ⟨treeRoot dh, dh, dh.enum.map (fun p => (p.2, buildProof dh p.1))⟩))
    else []
  let leaf_hashes := withDetail.map (fun l => hash_leaf_payload (leafValue l))
  let root := treeRoot leaf_hashes
  let proof_index : List (String × ProofItem) := withDetail.enum.map (fun p =>
    (proofLookupKey p.2.metric_key p.2.group,
     ⟨leaf_hashes.getD p.1 "", p.2, buildProof leaf_hashes p.1, root, p.1⟩))
  let root_details : Option String :=
    if detail_index.isEmpty then none
    else some (treeRoot ((sortBy strLeb (detail_index.map (fun kv => kv.1))).map
      (fun lookup =>
        hash_leaf_payload (.obj [("lookup", .str lookup),
          ("detail_root", .str (match lookupAssoc detail_index lookup with
            | some d => d.detail_root
            | none => ""))]))))
  ⟨root, root_details, withDetail, proof_index, detail_index⟩

/-- The stored disclosure-run columns the proof and reveal endpoints read. -/
structure DisclosureRunFull where
  disclosure_id : String
  policy_id : String
  root_summary : String
  root_details : Option String
  proof_index : List (String × ProofItem)
  detail_index : List (String × DetailEntry)

/-- `publish_disclosure_run` persists the commitment output unconditionally
(`proof_index=commitments.proof_index`), whatever the policy's proof level. -/
def publishRun (disclosure_id policy_id : String) (c : CommitmentResult) :
    DisclosureRunFull :=
  ⟨disclosure_id, policy_id, c.root_summary, c.root_details, c.proof_index, c.detail_index⟩

structure ProofResponse where
  disclosure_id : String
  metric_key : String
  group : Value
  root_summary : String
  item : ProofItem

/-- `GET /disclosure/{id}/proof`: look the `(metric_key, group)` key up in
the stored proof index; 404 when absent, otherwise the proof bundle. The
route performs no `proof_level` check of any kind. Errors are the HTTP
status codes the route raises. -/
def get_disclosure_proof (run : DisclosureRunFull) (metric_key : String) (group : Value) :
    Except Nat ProofResponse :=
  match lookupAssoc run.proof_index (proofLookupKey metric_key group) with
  | none => .error 404
  | some item => .ok ⟨run.disclosure_id, metric_key, group, run.root_summary, item⟩

end TC

namespace TC

/-! ### One-time tokens (`app/core/security.py`) -/

/-- `hmac.new(key, msg, sha256).digest()` (RFC 2104; keys here are shorter
than the 64-byte block). -/
def hmacSha256 (key msg : List Nat) : List Nat :=
  let k0 := if 64 < key.length then sha256 key else key
  let kpad := k0 ++ List.replicate (64 - k0.length) 0
  sha256 ((kpad.map (fun b => b ^^^ 92)) ++ sha256 ((kpad.map (fun b => b ^^^ 54)) ++ msg))

structure TokenClaims where
  jti : String
  subject : String
  disclosure_id : String
  issued_to_actor_type : String
  issued_to_actor_id : String
  iat : Int
  exp : Int
deriving DecidableEq

def claimsValue (c : TokenClaims) : Value :=
  .obj [("jti", .str c.jti), ("subject", .str c.subject),
        ("disclosure_id", .str c.disclosure_id),
        ("issued_to_actor_type", .str c.issued_to_actor_type),
        ("issued_to_actor_id", .str c.issued_to_actor_id),
        ("iat", .int c.iat), ("exp", .int c.exp)]

/-- `json.dumps(payload, separators=(",", ":"), sort_keys=True).encode()` —
for this flat claims dict this coincides with the canonical bytes. -/
def claimsBytes (c : TokenClaims) : List Nat := canonicalBytes (claimsValue c)

/-- The transport token after base64 decoding and JSON-parsing of the body:
`create_one_time_token` emits `urlsafe_b64encode(body ‖ mac)` where `body`
is the claims JSON and `mac` its HMAC-SHA256. The base64 layer is a
bijection on well-formed tokens and is not re-modelled; raw bytes of 32 or
fewer, undecodable input, and bodies that are not a claims JSON are all
rejected by `verify_one_time_token` before any state is read, exactly like
a wrong MAC, and are subsumed by the MAC-mismatch case. -/
structure Token where
  claims : TokenClaims
  mac : List Nat
deriving DecidableEq

/-- `create_one_time_token(...)`. -/
def create_one_time_token (key : List Nat) (subject disclosure_id : String)
    (ttl_seconds : Int) (token_id issued_to_actor_type issued_to_actor_id : String)
    (nowTs : Int) : Token :=
  let c : TokenClaims := ⟨token_id, subject, disclosure_id, issued_to_actor_type,
    issued_to_actor_id, nowTs, nowTs + ttl_seconds⟩
  ⟨c, hmacSha256 key (claimsBytes c)⟩

/-- The stable error identifiers of the reveal flow, named as in the spec's
error catalogue (`appendRejected` covers the ledger-append failure branch,
which `revealAppendAlwaysAllowed` shows to be unreachable). -/
inductive RevealError where
  | roleRequired
  | signatureMismatch
  | scopeMismatch
  | tokenExpired
  | missingJti
  | disclosureNotFound
  | notIssued
  | alreadyUsed
  | actorMismatch
  | noDetail
  | appendRejected
deriving DecidableEq

/-- The HTTP status the surrounding layer maps each error to. -/
def revealErrorStatus : RevealError → Nat
  | .roleRequired => 403
  | .signatureMismatch => 401
  | .scopeMismatch => 401
  | .tokenExpired => 401
  | .missingJti => 401
  | .disclosureNotFound => 404
  | .notIssued => 401
  | .alreadyUsed => 409
  | .actorMismatch => 403
  | .noDetail => 404
  | .appendRejected => 500

/-- `verify_one_time_token(token, disclosure_id)`: constant-time MAC check,
claim scope check, envelope expiry check. -/
def verify_one_time_token (key : List Nat) (token : Token) (disclosure_id : String)
    (nowTs : Int) : Except RevealError TokenClaims :=
  if !(token.mac == hmacSha256 key (claimsBytes token.claims)) then .error .signatureMismatch
  else if !(token.claims.disclosure_id == disclosure_id) then .error .scopeMismatch
  else if token.claims.exp < nowTs then .error .tokenExpired
  else .ok token.claims

/-! ### Selective reveal (`app/disclosure/selective.py`) -/

/-- A `SelectiveRevealTokenModel` row. -/
structure TokenRow where
  token_id : String
  disclosure_id : String
  subject : String
  issued_to_actor_type : String
  issued_to_actor_id : String
  expires_at : Int
  used_at : Option Int
  created_at : Int
deriving DecidableEq

/-- A `SelectiveRevealAuditModel` row. -/
structure AuditRow where
  disclosure_id : String
  actor_type : String
  actor_id : String
  challenge_subject : String
  requested_metric_key : String
  requested_group : Value
  granted : Bool
  created_at : Int

/-- The persistent state the reveal service reads and writes. -/
structure RevealState where
  runs : List DisclosureRunFull
  tokens : List TokenRow
  audits : List AuditRow
  ledger : List LedgerRow

def findRun (runs : List DisclosureRunFull) (id : String) : Option DisclosureRunFull :=
  match runs with
  | [] => none
  | r :: rest => if r.disclosure_id == id then some r else findRun rest id

def findTokenRow (tokens : List TokenRow) (id : String) : Option TokenRow :=
  match tokens with
  | [] => none
  | t :: rest => if t.token_id == id then some t else findTokenRow rest id

/-- `token_row.used_at = now` (primary key `token_id` is unique). -/
def markUsed (tokens : List TokenRow) (id : String) (nowTs : Int) : List TokenRow :=
  tokens.map (fun t =>
    if t.token_id == id then
      ⟨t.token_id, t.disclosure_id, t.subject, t.issued_to_actor_type,
       t.issued_to_actor_id, t.expires_at, some nowTs, t.created_at⟩
    else t)

/-- `SelectiveDisclosureService.request_token`: human/auditor only; record
the row and return the MAC envelope (`token_id` is the UUID drawn). -/
def request_token (key : List Nat) (s : RevealState) (disclosure_id subject : String)
    (actor : Actor) (ttl : Int) (token_id : String) (nowTs : Int) :
    RevealState × Except RevealError Token :=
  if !(actor.type == "human" || actor.type == "auditor") then (s, .error .roleRequired)
  else
    let token := create_one_time_token key subject disclosure_id ttl token_id
      actor.type actor.id nowTs
    (⟨s.runs,
      s.tokens ++ [⟨token_id, disclosure_id, subject, actor.type, actor.id,
        nowTs + ttl, none, nowTs⟩],
      s.audits, s.ledger⟩,
     .ok token)

structure RevealResponse where
  disclosure_id : String
  metric_key : String
  group : Value
  detail_root : String
  root_details : Option String
  revealed_event_hashes : List String
  event_proofs : List (String × List ProofNode)

/-- The actor-type normalization of the appended reveal event
(`actor.type if actor.type in {"human","system","agent","auditor"} else
"system"`). -/
def normalizeRevealActorType (t : String) : String :=
  if t == "human" || t == "system" || t == "agent" || t == "auditor" then t else "system"

/-- The commit block at the tail of `SelectiveDisclosureService.reveal`,
reached only after every check passed: mark the token used, add the audit
row, append the `SelectiveDisclosureRevealed` ledger event, and return the
evidence bundle. -/
def revealCommit (signFn : Value → String → String) (s : RevealState)
    (disclosure_id : String) (claims : TokenClaims) (token_id metric_key : String)
    (group : Value) (actor : Actor) (run : DisclosureRunFull) (detail : DetailEntry)
    (nowTs : Int) (nowText event_id : String) :
    RevealState × Except RevealError RevealResponse :=
  match append signFn s.ledger
      ⟨"SelectiveDisclosureRevealed", ⟨normalizeRevealActorType actor.type, actor.id⟩,
       run.policy_id,
       .obj [("disclosure_id", .str disclosure_id),
             ("metric_key", .str metric_key), ("group", group),
             ("revealed_event_hashes", .arr (detail.event_hashes.map .str)),
             ("challenge_subject", .str claims.subject)],
       .obj [("token_exp", .int claims.exp), ("token_id", .str token_id)],
       nowText⟩
      (expected_signer_role actor.type) event_id with
  | .error _ =>
    -- unreachable for human/auditor callers (`revealCommit_ok`); a raise
    -- here would roll the request transaction back uncommitted
    (s, .error .appendRejected)
  | .ok (ledger2, _) =>
    (⟨s.runs, markUsed s.tokens token_id nowTs,
      s.audits ++ [⟨disclosure_id, actor.type, actor.id, claims.subject, metric_key,
        group, true, nowTs⟩],
      ledger2⟩,
     .ok ⟨disclosure_id, metric_key, group, detail.detail_root, run.root_details,
       detail.event_hashes, detail.event_proofs⟩)

/-- `SelectiveDisclosureService.reveal`: the check sequence of the source in
order (role, envelope, jti, run, token row, scope, used, expiry, actor,
detail), then — only after every check passed — mark the token used, add the
audit row and append the `SelectiveDisclosureRevealed` ledger event. Every
error path raises before any mutation; an error therefore returns the state
unchanged (a raise aborts the request transaction unCommitted). `nowTs` and
`nowText` are the same instant as timestamp and canonical text; `event_id`
is the UUID drawn for the appended event. -/
def reveal (key : List Nat) (signFn : Value → String → String) (s : RevealState)
    (disclosure_id : String) (token : Token) (metric_key : String) (group : Value)
    (actor : Actor) (nowTs : Int) (nowText : String) (event_id : String) :
    RevealState × Except RevealError RevealResponse :=
  if !(actor.type == "human" || actor.type == "auditor") then (s, .error .roleRequired)
  else
    match verify_one_time_token key token disclosure_id nowTs with
    | .error e => (s, .error e)
    | .ok claims =>
      let token_id := stripStr claims.jti
      if token_id == "" then (s, .error .missingJti)
      else
        match findRun s.runs disclosure_id with
        | none => (s, .error .disclosureNotFound)
        | some run =>
          match findTokenRow s.tokens token_id with
          | none => (s, .error .notIssued)
          | some row =>
            if !(row.disclosure_id == disclosure_id) then (s, .error .scopeMismatch)
            else
              match row.used_at with
              | some _ => (s, .error .alreadyUsed)
              | none =>
                if row.expires_at < nowTs then (s, .error .tokenExpired)
                else if !(row.issued_to_actor_type == actor.type &&
                    row.issued_to_actor_id == actor.id) then
                  (s, .error .actorMismatch)
                else
                  match lookupAssoc run.detail_index (proofLookupKey metric_key group) with
                  | none => (s, .error .noDetail)
                  | some detail =>
                    revealCommit signFn s disclosure_id claims token_id metric_key group
                      actor run detail nowTs nowText event_id

end TC

namespace TC

/-! ## Claim theorems -/

/-- C6: for every Merkle tree built from a list of leaf hashes, the empty
root is SHA-256 of the empty input, a singleton tree's root is its leaf,
odd levels duplicate their last node, `hash_pair` is SHA-256 of the
concatenated raw bytes, and the proof generated for any in-range leaf index
verifies against the tree's root. -/
theorem C6_merkle_commitment_correct :
    treeRoot [] = sha256Hex [] ∧
    (∀ leaf : String, treeRoot [leaf] = leaf) ∧
    (∀ l : List String, l.length % 2 = 1 → padEven l = l ++ [(l.getLast?).getD ""]) ∧
    (∀ a b : String, hash_pair a b = sha256Hex (hexToBytes a.toList ++ hexToBytes b.toList)) ∧
    (∀ (leaves : List String) (i : Nat), leaves ≠ [] → i < leaves.length →
      verify_proof (leaves.getD i "") (buildProof leaves i) (treeRoot leaves) = true) := by
  refine ⟨?_, ?_, ?_, ?_, ?_⟩
  · rw [treeRoot]
    simp [EMPTY_ROOT]
  · intro leaf
    rw [treeRoot]
    simp
  · intro l h
    simp [padEven, h]
  · intro a b
    rfl
  · intro leaves i _ h
    exact verify_buildProof leaves i h

/-- Witness for C6 at the three-leaf tree and index 1. -/
theorem C6_merkle_commitment_correct_witness :
    (["aa", "bb", "cc"] : List String) ≠ [] ∧ 1 < (["aa", "bb", "cc"] : List String).length ∧
    verify_proof ((["aa", "bb", "cc"] : List String).getD 1 "")
      (buildProof ["aa", "bb", "cc"] 1) (treeRoot ["aa", "bb", "cc"]) = true :=
  ⟨by decide, by decide,
   C6_merkle_commitment_correct.2.2.2.2 ["aa", "bb", "cc"] 1 (by decide) (by decide)⟩

end TC

namespace TC

def dummyRow : LedgerRow := ⟨"", "", "", "", "", "", .null, .null, "", "", ""⟩

/-- Every successful `append` extends the row list by exactly one row whose
`prev_hash` is the latest stored `event_hash` (or the zero hash). -/
theorem append_ok_shape (signFn : Value → String → String) (rows : List LedgerRow)
    (req : EventCreateRequest) (signer event_id : String) (rows2 : List LedgerRow)
    (row : LedgerRow) (h : append signFn rows req signer event_id = .ok (rows2, row)) :
    rows2 = rows ++ [row] ∧ row.prev_hash = latestEventHash rows := by
  simp only [append] at h
  split at h
  · cases h
  · split at h
    · cases h
    · simp only [Except.ok.injEq, Prod.mk.injEq] at h
      obtain ⟨h1, h2⟩ := h
      subst h2
      exact ⟨h1.symm, rfl⟩

/-- `_latest_event_hash` of a non-empty store is the last row's hash. -/
theorem latestEventHash_eq (rows : List LedgerRow) (h : rows ≠ []) :
    latestEventHash rows = (rows.getD (rows.length - 1) dummyRow).event_hash := by
  induction rows with
  | nil => exact absurd rfl h
  | cons a t ih =>
    cases t with
    | nil => simp [latestEventHash, List.getD]
    | cons b t2 =>
      have hstep : latestEventHash (a :: b :: t2) = latestEventHash (b :: t2) := by
        simp [latestEventHash, List.getLast?]
      rw [hstep, ih (by simp)]
      have hlen : (a :: b :: t2).length - 1 = ((b :: t2).length - 1) + 1 := by
        simp
      rw [hlen, List.getD_cons_succ]

/-- The chain-linkage invariant of the stored rows: the first row points at
the zero hash and each later row points at its predecessor's hash. -/
def ChainInv (rows : List LedgerRow) : Prop :=
  (rows ≠ [] → (rows.getD 0 dummyRow).prev_hash = zeros64) ∧
  (∀ i : Nat, i + 1 < rows.length →
    (rows.getD (i + 1) dummyRow).prev_hash = (rows.getD i dummyRow).event_hash)

theorem chainInv_nil : ChainInv [] := by
  constructor
  · intro h
    exact absurd rfl h
  · intro i h
    simp at h

theorem chainInv_append (rows : List LedgerRow) (row : LedgerRow)
    (hInv : ChainInv rows) (hprev : row.prev_hash = latestEventHash rows) :
    ChainInv (rows ++ [row]) := by
  obtain ⟨hz, hlink⟩ := hInv
  constructor
  · intro _
    cases hrows : rows with
    | nil =>
      subst hrows
      simpa [latestEventHash] using hprev
    | cons a t =>
      have hne : rows ≠ [] := by simp [hrows]
      have h0 : 0 < rows.length := List.length_pos.mpr hne
      rw [List.getD_append _ _ _ _ (by simp)]
      subst hrows
      exact hz hne
  · intro i hi
    simp only [List.length_append, List.length_cons, List.length_nil] at hi
    by_cases hcase : i + 1 < rows.length
    · rw [List.getD_append _ _ _ _ hcase, List.getD_append _ _ _ _ (by omega)]
      exact hlink i hcase
    · have hie : i + 1 = rows.length := by omega
      have hne : rows ≠ [] := by
        intro hcontra
        rw [hcontra] at hie
        simp at hie
      have hlast : (rows ++ [row]).getD (i + 1) dummyRow = row := by
        rw [hie]
        rw [List.getD_eq_getElem?_getD, List.getElem?_append_right (by omega)]
        simp
      have hpred : (rows ++ [row]).getD i dummyRow = rows.getD i dummyRow :=
        List.getD_append _ _ _ _ (by omega)
      rw [hlast, hpred, hprev, latestEventHash_eq rows hne]
      have : rows.length - 1 = i := by omega
      rw [this]

/-- Folding successful appends preserves the chain-linkage invariant. -/
theorem appendAll_chainInv (signFn : Value → String → String)
    (reqs : List (EventCreateRequest × String × String)) :
    ∀ (rows0 rows : List LedgerRow), ChainInv rows0 →
      appendAll signFn rows0 reqs = .ok rows → ChainInv rows := by
  induction reqs with
  | nil =>
    intro rows0 rows hinv h
    simp only [appendAll, Except.ok.injEq] at h
    subst h
    exact hinv
  | cons head tail ih =>
    intro rows0 rows hinv h
    obtain ⟨req, signer, event_id⟩ := head
    simp only [appendAll] at h
    cases happ : append signFn rows0 req signer event_id with
    | error e =>
      rw [happ] at h
      cases h
    | ok pair =>
      obtain ⟨rows1, row⟩ := pair
      rw [happ] at h
      obtain ⟨hshape, hprev⟩ := append_ok_shape signFn rows0 req signer event_id rows1 row happ
      exact ih rows1 rows (hshape ▸ chainInv_append rows0 row hinv hprev) h

/-- C3: every ledger built by a sequence of successful appends is
hash-chained: the row at `seq_id = n` (`n ≥ 2`) has `prev_hash` equal to the
`event_hash` at `seq_id = n - 1`, and the row at `seq_id = 1` has
`prev_hash` equal to the 64-zero string. `seq_id` is the 1-based position. -/
theorem C3_append_chain_linkage (signFn : Value → String → String)
    (reqs : List (EventCreateRequest × String × String)) (rows : List LedgerRow)
    (h : appendAll signFn [] reqs = .ok rows) :
    (∀ n : Nat, 2 ≤ n → n ≤ rows.length →
      (rows.getD (n - 1) dummyRow).prev_hash = (rows.getD (n - 2) dummyRow).event_hash) ∧
    (rows ≠ [] → (rows.getD 0 dummyRow).prev_hash = zeros64) := by
  obtain ⟨hz, hlink⟩ := appendAll_chainInv signFn reqs [] rows chainInv_nil h
  constructor
  · intro n h2 hlen
    have e1 : n - 1 = (n - 2) + 1 := by omega
    rw [e1]
    exact hlink (n - 2) (by omega)
  · exact hz

def c3SignFn : Value → String → String := fun _ _ => ""

def c3Reqs : List (EventCreateRequest × String × String) :=
  [(⟨"OrderPlaced", ⟨"agent", "agent-1"⟩, "policy_internal_v1",
     .obj [("order_id", .str "o1")], .obj [], "2025-01-01T00:00:00.000000Z"⟩,
    "agent", "11111111-1111-1111-1111-111111111111"),
   (⟨"PaymentCaptured", ⟨"agent", "agent-1"⟩, "policy_internal_v1",
     .obj [("order_id", .str "o1"), ("amount", .int 5000)], .obj [],
     "2025-01-01T00:01:00.000000Z"⟩,
    "agent", "22222222-2222-2222-2222-222222222222")]

def c3Rows : List LedgerRow := (appendAll c3SignFn [] c3Reqs).toOption.getD []

/-- Witness for C3: a concrete two-append ledger. -/
theorem C3_append_chain_linkage_witness :
    appendAll c3SignFn [] c3Reqs = .ok c3Rows ∧
    ((∀ n : Nat, 2 ≤ n → n ≤ c3Rows.length →
      (c3Rows.getD (n - 1) dummyRow).prev_hash = (c3Rows.getD (n - 2) dummyRow).event_hash) ∧
     (c3Rows ≠ [] → (c3Rows.getD 0 dummyRow).prev_hash = zeros64)) :=
  ⟨rfl, C3_append_chain_linkage c3SignFn c3Reqs c3Rows rfl⟩

end TC

namespace TC

/-- The two checks `verify_chain` actually performs, as a predicate: each
event continues the chain and its stored `event_hash` matches the
recomputation over the canonical event view (which carries the signature as
data). There is no signature-verification conjunct: `verify_chain` never
calls `verify_object`. -/
def ChainChecks (prev : String) : List LedgerRow → Prop
  | [] => True
  | e :: rest =>
    e.prev_hash = prev ∧ sha256HexV (rowHashView e) = e.event_hash ∧
    ChainChecks e.event_hash rest

theorem verifyChainGo_iff (rows : List LedgerRow) :
    ∀ prev, verifyChainGo prev rows = true ↔ ChainChecks prev rows := by
  induction rows with
  | nil =>
    intro prev
    simp [verifyChainGo, ChainChecks]
  | cons e rest ih =>
    intro prev
    simp only [verifyChainGo, ChainChecks]
    by_cases h1 : e.prev_hash = prev
    · by_cases h2 : sha256HexV (rowHashView e) = e.event_hash
      · simp [h1, h2, ih e.event_hash]
      · simp [h1, h2]
    · simp [h1]

/-- C1 (amended): `verify_chain` walks the stored events in `seq_id` order
and returns true exactly when every event's `prev_hash` continues the chain
from the zero hash and every stored `event_hash` equals the SHA-256 of the
canonical event view (a view that contains the stored signature bytes); it
performs no cryptographic signature verification. -/
theorem C1_verify_chain_checks_linkage_and_hashes_only (rows : List LedgerRow) :
    verify_chain rows = true ↔ ChainChecks zeros64 rows := by
  exact verifyChainGo_iff rows zeros64

/-- A stored event whose `event_hash` is internally consistent but whose
signature field is the empty string — two bytes short of any possible
Ed25519 signature. -/
def c1RowBase : LedgerRow :=
  ⟨"11111111-1111-1111-1111-111111111111", "OrderPlaced", "2025-01-01T00:00:00.000000Z",
   "agent", "agent-1", "policy_internal_v1", .obj [("order_id", .str "o1")], .obj [],
   zeros64, "", ""⟩

def c1Hash : String := sha256HexV (rowHashView c1RowBase)

def c1Row : LedgerRow :=
  ⟨"11111111-1111-1111-1111-111111111111", "OrderPlaced", "2025-01-01T00:00:00.000000Z",
   "agent", "agent-1", "policy_internal_v1", .obj [("order_id", .str "o1")], .obj [],
   zeros64, c1Hash, ""⟩

/-- The signature of this row verifies under no public key (its decoded
length is 0, not the 64 bytes any Ed25519 verifier requires). -/
def SigNeverVerifies (e : LedgerRow) : Prop :=
  ∀ public_key_b64 : String, verify_object (rowSignView e) e.signature public_key_b64 = false

/-- Counterexample to C1 as stated: `verify_chain` accepts a chain whose
single event carries a signature that cannot verify under any key, because
it checks only linkage and hash recomputation, never signatures. -/
theorem C1_counterexample_no_signature_check :
    verify_chain [c1Row] = true ∧ c1Row.signature = "" ∧ SigNeverVerifies c1Row := by
  refine ⟨?_, rfl, ?_⟩
  · show verifyChainGo zeros64 [c1Row] = true
    have h1 : (c1Row.prev_hash == zeros64) = true := by decide
    have h2 : (sha256HexV (rowHashView c1Row) == c1Row.event_hash) = true := by
      have hv : rowHashView c1Row = rowHashView c1RowBase := rfl
      have he : c1Row.event_hash = sha256HexV (rowHashView c1RowBase) := rfl
      rw [hv, he]
      exact beq_self_eq_true _
    simp [verifyChainGo, h1, h2]
  · intro pk
    rfl

end TC

namespace TC

/-- Witness for C1's amended characterization at the concrete one-row chain. -/
theorem C1_verify_chain_checks_linkage_and_hashes_only_witness :
    verify_chain [c1Row] = true ↔ ChainChecks zeros64 [c1Row] :=
  C1_verify_chain_checks_linkage_and_hashes_only [c1Row]

/-- C2 (the code against the claim and the repository's own test): when no
governance rule matches, `evaluate` returns allow — for `tool:*` actions
exactly as for `event:*` actions — with the default-allow reason, and no
`default_decision` field exists anywhere on `GovernancePolicy`
(`policy_id`, `version`, `rules` are its only fields). The repository's test
`test_governance_default_deny_for_unknown_action` asserts the opposite
(`allowed is False`, reason containing "denied by default") for exactly this
input. -/
theorem C2_unmatched_tool_action_is_allowed :
    (evaluate DEFAULT_GOVERNANCE_POLICY "tool:unknown.connector_action" "agent" "agent"
      (.obj []) (.obj []) []).allowed = true ∧
    (evaluate DEFAULT_GOVERNANCE_POLICY "tool:unknown.connector_action" "agent" "agent"
      (.obj []) (.obj []) []).matched_rule_id = none ∧
    (evaluate DEFAULT_GOVERNANCE_POLICY "tool:unknown.connector_action" "agent" "agent"
      (.obj []) (.obj []) []).reason = "allowed by default (no matched rule)" ∧
    (evaluate DEFAULT_GOVERNANCE_POLICY "event:OrderPlaced" "agent" "agent"
      (.obj []) (.obj []) []).allowed = true :=
  ⟨rfl, rfl, rfl, rfl⟩

/-- A disclosure run published under a `root_only` policy: the publisher
passes `proof_level="root_only"` into `build_commitments` and stores the
returned `proof_index` unconditionally. -/
def c4Commit : CommitmentResult :=
  build_commitments [("revenue_cents", 5000)] [] "policy_public_root_only_v1" "ph-root-only"
    "2025-01-01T00:00:00Z" "2025-01-02T00:00:00Z" "root_only" []

def c4Run : DisclosureRunFull := publishRun "d-root-only" "policy_public_root_only_v1" c4Commit

/-- C4 (the code against the claim and the repository's own test): for a run
published under a `root_only` policy, the proof endpoint serves the
per-metric Merkle proof with 200 — it performs no `ProofLevelGated` check
(no such check exists anywhere in the code, and no `root_only` policy is
registered in the catalogue), while `test_proof_level_gate.py` expects 403. -/
theorem C4_root_only_proof_endpoint_serves_proof :
    (get_disclosure_proof c4Run "revenue_cents" (Value.obj [])).isOk = true ∧
    ¬(get_disclosure_proof c4Run "revenue_cents" (Value.obj []) = .error 403) := by
  have h1 : (get_disclosure_proof c4Run "revenue_cents" (Value.obj [])).isOk = true := rfl
  refine ⟨h1, ?_⟩
  intro hc
  rw [hc] at h1
  exact Bool.false_ne_true h1

end TC

namespace TC

def dummyLot : Lot := ⟨"", "", 0, none, 0, ""⟩

/-- "Some later row was consumed from" — pointwise over the original rows
and the rows `fifoWalk` returned. -/
def AnyConsumed : List Lot → List Lot → Prop
  | r :: rs, u :: us => u.qty_on_hand < r.qty_on_hand ∨ AnyConsumed rs us
  | _, _ => False

/-- FIFO exhaustion: whenever any later row was consumed from, this row was
fully drained. -/
def ConsumedPrefixZero : List Lot → List Lot → Prop
  | _ :: rs, u :: us => (AnyConsumed rs us → u.qty_on_hand = 0) ∧ ConsumedPrefixZero rs us
  | _, _ => True

/-- Σ (taken from lot × lot unit cost) over original/updated row pairs. -/
def consumedCost : List Lot → List Lot → Int
  | r :: rs, u :: us =>
    (r.qty_on_hand - u.qty_on_hand) * r.unit_cost_cents + consumedCost rs us
  | _, _ => 0

/-- Σ taken-from-lot over original/updated row pairs. -/
def consumedQty : List Lot → List Lot → Int
  | r :: rs, u :: us => (r.qty_on_hand - u.qty_on_hand) + consumedQty rs us
  | _, _ => 0

theorem fifoWalk_nonpos (oc : String) (rows : List Lot) (remaining : Int)
    (h : remaining ≤ 0) : fifoWalk oc rows remaining = (rows, 0, remaining) := by
  cases rows with
  | nil => simp [fifoWalk]
  | cons r rest => simp [fifoWalk, h]

theorem anyConsumed_self (l : List Lot) : ¬AnyConsumed l l := by
  induction l with
  | nil => simp [AnyConsumed]
  | cons r rest ih =>
    simp only [AnyConsumed]
    intro h
    rcases h with h | h
    · omega
    · exact ih h

theorem consumedPrefixZero_self (l : List Lot) : ConsumedPrefixZero l l := by
  induction l with
  | nil => simp [ConsumedPrefixZero]
  | cons r rest ih =>
    exact ⟨fun h => absurd h (anyConsumed_self rest), ih⟩

theorem consumedCost_self (l : List Lot) : consumedCost l l = 0 := by
  induction l with
  | nil => simp [consumedCost]
  | cons r rest ih => simp [consumedCost, ih]

theorem consumedQty_self (l : List Lot) : consumedQty l l = 0 := by
  induction l with
  | nil => simp [consumedQty]
  | cons r rest ih => simp [consumedQty, ih]

/-- The walk consumes strictly front-to-back: a row is only left partially
(or un-) consumed when everything after it is untouched. -/
theorem fifoWalk_fifo (oc : String) (rows : List Lot) :
    ∀ remaining : Int, ConsumedPrefixZero rows (fifoWalk oc rows remaining).1 := by
  induction rows with
  | nil =>
    intro remaining
    simp [fifoWalk, ConsumedPrefixZero]
  | cons r rest ih =>
    intro remaining
    by_cases hr : remaining ≤ 0
    · rw [fifoWalk_nonpos oc (r :: rest) remaining hr]
      exact consumedPrefixZero_self (r :: rest)
    · simp only [fifoWalk, if_neg hr]
      refine ⟨?_, ih (remaining - min r.qty_on_hand remaining)⟩
      intro hany
      by_cases hq : r.qty_on_hand ≤ remaining
      · simp only [min_eq_left hq]
        omega
      · have hmin : min r.qty_on_hand remaining = remaining := by omega
        rw [hmin] at hany ⊢
        rw [fifoWalk_nonpos oc rest (remaining - remaining) (by omega)] at hany
        exact absurd hany (anyConsumed_self rest)

/-- The cost the walk returns is exactly Σ taken × unit_cost. -/
theorem fifoWalk_cost (oc : String) (rows : List Lot) :
    ∀ remaining : Int,
      (fifoWalk oc rows remaining).2.1 = consumedCost rows (fifoWalk oc rows remaining).1 := by
  induction rows with
  | nil =>
    intro remaining
    simp [fifoWalk, consumedCost]
  | cons r rest ih =>
    intro remaining
    by_cases hr : remaining ≤ 0
    · rw [fifoWalk_nonpos oc (r :: rest) remaining hr]
      simp [consumedCost_self]
    · simp only [fifoWalk, if_neg hr, consumedCost]
      rw [← ih (remaining - min r.qty_on_hand remaining)]
      have : r.qty_on_hand - (r.qty_on_hand - min r.qty_on_hand remaining) =
          min r.qty_on_hand remaining := by omega
      rw [this]

/-- The total quantity the walk consumes is the drop in `remaining`. -/
theorem fifoWalk_qty (oc : String) (rows : List Lot) :
    ∀ remaining : Int,
      consumedQty rows (fifoWalk oc rows remaining).1 =
        remaining - (fifoWalk oc rows remaining).2.2 := by
  induction rows with
  | nil =>
    intro remaining
    simp [fifoWalk, consumedQty]
  | cons r rest ih =>
    intro remaining
    by_cases hr : remaining ≤ 0
    · rw [fifoWalk_nonpos oc (r :: rest) remaining hr]
      simp [consumedQty_self]
    · simp only [fifoWalk, if_neg hr, consumedQty]
      rw [ih (remaining - min r.qty_on_hand remaining)]
      omega

/-- The remainder never goes negative when the request is non-negative. -/
theorem fifoWalk_rem_nonneg (oc : String) (rows : List Lot) :
    ∀ remaining : Int, 0 ≤ remaining → 0 ≤ (fifoWalk oc rows remaining).2.2 := by
  induction rows with
  | nil =>
    intro remaining h
    simpa [fifoWalk] using h
  | cons r rest ih =>
    intro remaining h
    by_cases hr : remaining ≤ 0
    · rw [fifoWalk_nonpos oc (r :: rest) remaining hr]
      exact h
    · simp only [fifoWalk, if_neg hr]
      exact ih (remaining - min r.qty_on_hand remaining) (by omega)

/-- Inversion of a successful `consume_fifo`. -/
theorem consume_fifo_ok (lots : List Lot) (sku : String) (qty : Int) (oc : String)
    (lots2 : List Lot) (cost : Int) (h : consume_fifo lots sku qty oc = .ok (lots2, cost)) :
    cost = (fifoWalk oc (sortBy fifoLe
      (lots.filter (fun l => l.sku == sku && 0 < l.qty_on_hand))) qty).2.1 ∧
    (fifoWalk oc (sortBy fifoLe
      (lots.filter (fun l => l.sku == sku && 0 < l.qty_on_hand))) qty).2.2 ≤ 0 := by
  simp only [consume_fifo] at h
  split at h
  · cases h
  · simp only [Except.ok.injEq, Prod.mk.injEq] at h
    constructor
    · exact h.2.symm
    · omega

end TC

namespace TC

/-- The candidate rows `_consume_fifo` queries: positive lots of the sku in
`(expiry_date asc, batch_id asc)` order. -/
def fifoCandidates (lots : List Lot) (sku : String) : List Lot :=
  sortBy fifoLe (lots.filter (fun l => l.sku == sku && 0 < l.qty_on_hand))

/-- The chain-linkage test scenario: receive 100 units of `tomato` at
unit_cost 200 with QC passed, then dispatch 10. -/
def c5Events : List InvEvent :=
  [.goodsReceived "ev1" "2025-01-01T10:00:00.000000Z" "p1" "b1"
     [⟨"tomato", 100, some "2026-01-20", some 200⟩] true,
   .shipmentDispatched "ev2" "2025-01-01T11:00:00.000000Z" "o1" [⟨"tomato", 10⟩]]

def c5Result : List Lot × List (String × Int) :=
  (rebuildInventoryView c5Events).toOption.getD ([], [])

/-- C5: every successful `ShipmentDispatched` consumption drains a sku's
lots in FIFO order — sorted by `(expiry_date asc, batch_id asc)`, an earlier
lot is exhausted before any later lot is touched — and the recorded COGS is
Σ (taken from lot × lot unit_cost), with the full shipped quantity
consumed; concretely, receiving 100 @ 200 and shipping 10 leaves a balance
of 90 and records COGS 2000 under the shipment's `event_id`. -/
theorem C5_fifo_consumption_and_cogs :
    (∀ (lots : List Lot) (sku : String) (qty : Int) (oc : String)
       (lots2 : List Lot) (cost : Int),
      consume_fifo lots sku qty oc = .ok (lots2, cost) →
      ConsumedPrefixZero (fifoCandidates lots sku)
        (fifoWalk oc (fifoCandidates lots sku) qty).1 ∧
      cost = consumedCost (fifoCandidates lots sku)
        (fifoWalk oc (fifoCandidates lots sku) qty).1 ∧
      (0 ≤ qty → consumedQty (fifoCandidates lots sku)
        (fifoWalk oc (fifoCandidates lots sku) qty).1 = qty)) ∧
    rebuildInventoryView c5Events = .ok c5Result ∧
    skuBalance c5Result.1 "tomato" = 90 ∧
    costFor c5Result.2 "ev2" = some 2000 := by
  refine ⟨?_, rfl, by decide, by decide⟩
  intro lots sku qty oc lots2 cost h
  obtain ⟨hc, hrem⟩ := consume_fifo_ok lots sku qty oc lots2 cost h
  refine ⟨fifoWalk_fifo oc _ qty, ?_, ?_⟩
  · rw [hc]
    exact fifoWalk_cost oc _ qty
  · intro hq
    have hnn := fifoWalk_rem_nonneg oc (fifoCandidates lots sku) qty hq
    have hqty := fifoWalk_qty oc (fifoCandidates lots sku) qty
    rw [hqty]
    have : (fifoWalk oc (fifoCandidates lots sku) qty).2.2 ≤ 0 := hrem
    omega

def c5Lots : List Lot := [⟨"tomato", "b1", 100, some "2026-01-20", 200, "t1"⟩]

def c5After : List Lot × Int := (consume_fifo c5Lots "tomato" 10 "t2").toOption.getD ([], 0)

/-- Witness for C5 at the concrete single-lot store. -/
theorem C5_fifo_consumption_and_cogs_witness :
    consume_fifo c5Lots "tomato" 10 "t2" = .ok c5After ∧ (0 : Int) ≤ 10 ∧
    consumedQty (fifoCandidates c5Lots "tomato")
      (fifoWalk "t2" (fifoCandidates c5Lots "tomato") 10).1 = 10 :=
  ⟨rfl, by decide,
   (C5_fifo_consumption_and_cogs.1 c5Lots "tomato" 10 "t2" c5After.1 c5After.2 rfl).2.2
     (by decide)⟩

end TC

namespace TC

theorem lotMut_fields (l : Lot) (d : Int) (e : Option String) (c : Int) (oc : String) :
    (lotMut l d e c oc).sku = l.sku ∧ (lotMut l d e c oc).batch_id = l.batch_id ∧
    (lotMut l d e c oc).qty_on_hand = l.qty_on_hand + d ∧
    (lotMut l d e c oc).unit_cost_cents = (if c = 0 then l.unit_cost_cents else c) ∧
    (lotMut l d e c oc).updated_at = oc := by
  simp only [lotMut]
  cases e <;> split_ifs <;> simp_all <;> split_ifs <;> simp_all

theorem findLot_decomp (pre post : List Lot) (l0 : Lot) (sku batch_id : String)
    (hpre : ∀ l ∈ pre, (l.sku == sku && l.batch_id == batch_id) = false)
    (hl0 : (l0.sku == sku && l0.batch_id == batch_id) = true) :
    findLot (pre ++ l0 :: post) sku batch_id = some l0 := by
  induction pre with
  | nil => simp [findLot, hl0]
  | cons a rest ih =>
    have ha := hpre a (by simp)
    simp only [List.cons_append, findLot, ha, Bool.false_eq_true, if_false]
    exact ih (fun l hl => hpre l (by simp [hl]))

theorem map_id_of_noMatch (p : Lot → Bool) (g : Lot → Lot) (xs : List Lot)
    (h : ∀ l ∈ xs, p l = false) :
    (xs.map (fun l => if p l then g l else l)) = xs := by
  induction xs with
  | nil => simp
  | cons a rest ih =>
    have ha := h a (by simp)
    simp only [List.map_cons, ha, Bool.false_eq_true, if_false, List.cons.injEq]
    exact ⟨trivial, ih (fun l hl => h l (by simp [hl]))⟩

theorem filter_nil_of_noMatch (p : Lot → Bool) (xs : List Lot)
    (h : ∀ l ∈ xs, p l = false) : xs.filter p = [] := by
  induction xs with
  | nil => simp
  | cons a rest ih =>
    have ha := h a (by simp)
    simp only [List.filter_cons, ha, Bool.false_eq_true, if_false]
    exact ih (fun l hl => h l (by simp [hl]))

/-- C8 (amended): when a `GoodsReceived` item with `qc_passed = true`
augments an already-existing lot `(sku, batch_id)`, the lot's quantity
increases by the received quantity, but the lot's `unit_cost_cents` is
simply replaced by the incoming item's unit cost when it is non-zero (and
retained when it is zero) — no quantity-weighted average is computed. -/
theorem C8_augment_replaces_unit_cost (pre post : List Lot) (l0 : Lot)
    (sku batch_id : String) (qty_delta : Int) (expiry : Option String) (unit_cost : Int)
    (oc : String)
    (hpre : ∀ l ∈ pre, (l.sku == sku && l.batch_id == batch_id) = false)
    (hl0 : (l0.sku == sku && l0.batch_id == batch_id) = true)
    (hpost : ∀ l ∈ post, (l.sku == sku && l.batch_id == batch_id) = false)
    (hq : 0 ≤ l0.qty_on_hand + qty_delta) :
    upsertBatch (pre ++ l0 :: post) sku batch_id qty_delta expiry unit_cost oc =
      .ok (pre ++ lotMut l0 qty_delta expiry unit_cost oc :: post) ∧
    (lotMut l0 qty_delta expiry unit_cost oc).qty_on_hand = l0.qty_on_hand + qty_delta ∧
    (lotMut l0 qty_delta expiry unit_cost oc).unit_cost_cents =
      (if unit_cost = 0 then l0.unit_cost_cents else unit_cost) := by
  obtain ⟨hsku, hbatch, hqty, hcost, hupd⟩ :=
    lotMut_fields l0 qty_delta expiry unit_cost oc
  have hkey : ((lotMut l0 qty_delta expiry unit_cost oc).sku == sku &&
      (lotMut l0 qty_delta expiry unit_cost oc).batch_id == batch_id) = true := by
    rw [hsku, hbatch]
    exact hl0
  have hmap : ((pre ++ l0 :: post).map (fun l =>
      if l.sku == sku && l.batch_id == batch_id then
        lotMut l qty_delta expiry unit_cost oc
      else l)) = pre ++ lotMut l0 qty_delta expiry unit_cost oc :: post := by
    rw [List.map_append, List.map_cons]
    rw [map_id_of_noMatch _ _ pre hpre, map_id_of_noMatch _ _ post hpost, hl0]
    simp
  have hfilter : ((pre ++ lotMut l0 qty_delta expiry unit_cost oc :: post).filter
      (fun l => l.sku == sku && l.batch_id == batch_id)) =
      [lotMut l0 qty_delta expiry unit_cost oc] := by
    rw [List.filter_append, List.filter_cons]
    rw [filter_nil_of_noMatch _ pre hpre, filter_nil_of_noMatch _ post hpost, hkey]
    simp
  refine ⟨?_, hqty, hcost⟩
  simp only [upsertBatch, findLot_decomp pre post l0 sku batch_id hpre hl0, hmap, hfilter]
  have hnoneg : decide ((lotMut l0 qty_delta expiry unit_cost oc).qty_on_hand < 0) = false := by
    rw [hqty]
    simpa using hq
  simp [List.any_cons, hnoneg]

/-- Two receives into the same `(sku, batch_id)` lot: 10 @ 100 then
10 @ 200. -/
def c8Events : List InvEvent :=
  [.goodsReceived "r1" "2025-01-01T00:00:00.000000Z" "p1" "b1"
     [⟨"s", 10, some "2026-01-01", some 100⟩] true,
   .goodsReceived "r2" "2025-01-02T00:00:00.000000Z" "p1" "b1"
     [⟨"s", 10, some "2026-01-01", some 200⟩] true]

def c8Lots : List Lot := ((rebuildInventoryView c8Events).toOption.getD ([], [])).1

/-- Counterexample to C8 as stated: after augmenting a 10 @ 100 lot with
10 @ 200, the stored unit cost is 200 — the incoming cost — whereas the
claimed quantity-weighted average (integer division) is 150. -/
theorem C8_counterexample_no_weighted_average :
    c8Lots = [⟨"s", "b1", 20, some "2026-01-01", 200,
      "2025-01-02T00:00:00.000000Z"⟩] ∧
    ((10 * 100 + 10 * 200) / (10 + 10) : Int) = 150 ∧ (200 : Int) ≠ 150 :=
  ⟨by decide, by decide, by decide⟩

/-- Witness for C8's amended theorem at a concrete store. -/
theorem C8_augment_replaces_unit_cost_witness :
    ((⟨"s", "b1", 10, some "2026-01-01", 100, "t1"⟩ : Lot).sku == "s" &&
      (⟨"s", "b1", 10, some "2026-01-01", 100, "t1"⟩ : Lot).batch_id == "b1") = true ∧
    (0 : Int) ≤ 10 + 10 ∧
    upsertBatch [⟨"s", "b1", 10, some "2026-01-01", 100, "t1"⟩] "s" "b1" 10
      (some "2026-01-01") 200 "t2" =
      .ok [lotMut ⟨"s", "b1", 10, some "2026-01-01", 100, "t1"⟩ 10
        (some "2026-01-01") 200 "t2"] :=
  ⟨by decide, by decide,
   (C8_augment_replaces_unit_cost [] [] ⟨"s", "b1", 10, some "2026-01-01", 100, "t1"⟩
     "s" "b1" 10 (some "2026-01-01") 200 "t2"
     (fun l hl => absurd hl (List.not_mem_nil l))
     (by decide)
     (fun l hl => absurd hl (List.not_mem_nil l))
     (by decide)).1⟩

end TC

namespace TC

theorem findOrder_some_id (orders : List OrderView) (oid : String) (o : OrderView)
    (h : findOrder orders oid = some o) : o.order_id = oid := by
  induction orders with
  | nil => cases h
  | cons a rest ih =>
    simp only [findOrder] at h
    by_cases ha : (a.order_id == oid) = true
    · rw [if_pos ha] at h
      cases h
      exact eq_of_beq ha
    · rw [if_neg (by simpa using ha)] at h
      exact ih h

theorem findOrder_append_self (orders : List OrderView) (o : OrderView)
    (h : findOrder orders o.order_id = none) :
    findOrder (orders ++ [o]) o.order_id = some o := by
  induction orders with
  | nil => simp [findOrder]
  | cons a rest ih =>
    simp only [findOrder, List.cons_append] at h ⊢
    by_cases ha : (a.order_id == o.order_id) = true
    · rw [if_pos ha] at h
      cases h
    · rw [if_neg (by simpa using ha)] at h ⊢
      exact ih h

theorem findOrder_mapReplace (orders : List OrderView) (o a : OrderView)
    (h : findOrder orders o.order_id = some a) :
    findOrder (orders.map (fun x => if x.order_id == o.order_id then o else x))
      o.order_id = some o := by
  induction orders with
  | nil => cases h
  | cons b rest ih =>
    by_cases hb : (b.order_id == o.order_id) = true
    · simp only [List.map_cons, hb, if_true, findOrder, beq_self_eq_true]
    · have hb2 : (b.order_id == o.order_id) = false := by
        cases hcase : (b.order_id == o.order_id)
        · rfl
        · exact absurd hcase hb
      simp only [findOrder, hb2, Bool.false_eq_true, if_false] at h
      simp only [List.map_cons, hb2, Bool.false_eq_true, if_false, findOrder]
      exact ih h

theorem findOrder_storeOrder (orders : List OrderView) (o : OrderView) :
    findOrder (storeOrder orders o) o.order_id = some o := by
  unfold storeOrder
  cases h : findOrder orders o.order_id with
  | none => exact findOrder_append_self orders o h
  | some a => exact findOrder_mapReplace orders o a h

theorem findOrder_storeOrder_at (orders : List OrderView) (v : OrderView) (oid : String)
    (h : v.order_id = oid) : findOrder (storeOrder orders v) oid = some v := by
  rw [← h]
  exact findOrder_storeOrder orders v

theorem status_after_store (orders : List OrderView) (v : OrderView) (oid now : String)
    (h : v.order_id = oid) :
    ((findOrder (storeOrder orders v) oid).getD (defaultOrder oid now)).status = v.status := by
  rw [findOrder_storeOrder_at orders v oid h]
  rfl

theorem upsertOrder_id (orders : List OrderView) (oid now : String) :
    (upsertOrder orders oid now).order_id = oid := by
  unfold upsertOrder
  cases h : findOrder orders oid with
  | none => rfl
  | some o => exact findOrder_some_id orders oid o h

/-- C9 (amended): the orders projection sets each order's status directly
from the event being applied, with no monotonicity guard: `OrderPlaced`
resets it to `placed`; `PaymentCaptured` sets `paid` whenever the
cumulative paid amount is positive — even if the order was already
`shipped` or `refunded`; `ShipmentDispatched` always sets `shipped`;
`RefundIssued` sets `refunded` whenever the cumulative refund is positive.
Later lower-ranked events therefore do move the stored status back down. -/
theorem C9_status_follows_last_event (orders : List OrderView) :
    (∀ (now oid : String) (cref chan reg : Option String) (items : List OrderItem),
      ((findOrder (applyOrderEvent orders (.orderPlaced now oid cref chan reg items))
        oid).getD (defaultOrder oid now)).status = "placed") ∧
    (∀ (now oid : String) (amount : Int),
      ((findOrder (applyOrderEvent orders (.paymentCaptured now oid amount)) oid).getD
        (defaultOrder oid now)).status =
        (if 0 < (upsertOrder orders oid now).paid_cents + amount then "paid"
         else (upsertOrder orders oid now).status)) ∧
    (∀ (now oid : String) (items : List ShipItem),
      ((findOrder (applyOrderEvent orders (.shipmentDispatched now oid items)) oid).getD
        (defaultOrder oid now)).status = "shipped") ∧
    (∀ (now oid : String) (amount : Int),
      ((findOrder (applyOrderEvent orders (.refundIssued now oid amount)) oid).getD
        (defaultOrder oid now)).status =
        (if 0 < (upsertOrder orders oid now).refunded_cents + amount then "refunded"
         else (upsertOrder orders oid now).status)) := by
  refine ⟨?_, ?_, ?_, ?_⟩
  · intro now oid cref chan reg items
    simp only [applyOrderEvent]
    exact status_after_store orders _ oid now rfl
  · intro now oid amount
    simp only [applyOrderEvent]
    exact status_after_store orders _ oid now (upsertOrder_id orders oid now)
  · intro now oid items
    simp only [applyOrderEvent]
    exact status_after_store orders _ oid now (upsertOrder_id orders oid now)
  · intro now oid amount
    simp only [applyOrderEvent]
    exact status_after_store orders _ oid now (upsertOrder_id orders oid now)

/-- Place, ship, then capture payment for the same order. -/
def c9Events : List OrderEvent :=
  [.orderPlaced "t1" "o1" (some "c1") (some "web") none [⟨"s", 10, 500⟩],
   .shipmentDispatched "t2" "o1" [⟨"s", 10⟩],
   .paymentCaptured "t3" "o1" 5000]

/-- Counterexample to C9 as stated: a `PaymentCaptured` observed after a
`ShipmentDispatched` moves the stored status back down from `shipped`
(rank 2) to `paid` (rank 1) — statuses are not monotonic. -/
theorem C9_counterexample_payment_demotes_shipped :
    ((findOrder (rebuildOrdersView c9Events) "o1").getD (defaultOrder "" "")).status =
      "paid" ∧
    statusRank "paid" < statusRank "shipped" :=
  ⟨by decide, by decide⟩

/-- Witness for C9's amended characterization: applying `PaymentCaptured`
to a freshly shipped order yields status `paid`. -/
theorem C9_status_follows_last_event_witness :
    ((findOrder (applyOrderEvent (rebuildOrdersView [.orderPlaced "t1" "o1" none none none [],
        .shipmentDispatched "t2" "o1" [⟨"s", 1⟩]]) (.paymentCaptured "t3" "o1" 5000))
      "o1").getD (defaultOrder "o1" "t3")).status =
      (if 0 < (upsertOrder (rebuildOrdersView [.orderPlaced "t1" "o1" none none none [],
          .shipmentDispatched "t2" "o1" [⟨"s", 1⟩]]) "o1" "t3").paid_cents + 5000 then "paid"
       else (upsertOrder (rebuildOrdersView [.orderPlaced "t1" "o1" none none none [],
          .shipmentDispatched "t2" "o1" [⟨"s", 1⟩]]) "o1" "t3").status) :=
  (C9_status_follows_last_event (rebuildOrdersView [.orderPlaced "t1" "o1" none none none [],
    .shipmentDispatched "t2" "o1" [⟨"s", 1⟩]])).2.1 "t3" "o1" 5000

end TC

namespace TC

/-- No governance rule targets `event:SelectiveDisclosureRevealed`, so the
engine's fall-through default allows it for any caller. -/
theorem evaluate_selective_allowed (actor_type signer_role : String)
    (payload tool_trace : Value) (approvals : List String) :
    (evaluate DEFAULT_GOVERNANCE_POLICY "event:SelectiveDisclosureRevealed" actor_type
      signer_role payload tool_trace approvals).allowed = true := rfl

theorem append_ok_of_allowed (signFn : Value → String → String) (rows : List LedgerRow)
    (req : EventCreateRequest) (signer eid : String)
    (hsig : (signer == expected_signer_role req.actor.type) = true)
    (hallow : (evaluate DEFAULT_GOVERNANCE_POLICY ("event:" ++ req.event_type)
      req.actor.type signer req.payload req.tool_trace
      (approvalsOfTrace req.tool_trace)).allowed = true) :
    ∃ row, append signFn rows req signer eid = .ok (rows ++ [row], row) ∧
      row.event_type = req.event_type := by
  simp only [append, hsig, Bool.not_true, Bool.false_eq_true, if_false, hallow]
  exact ⟨_, rfl, rfl⟩

/-- The commit block always succeeds for human/auditor callers: the signer
matches the normalized actor type and governance default-allows the event. -/
theorem revealCommit_ok (signFn : Value → String → String) (s : RevealState)
    (d : String) (claims : TokenClaims) (token_id mk : String) (g : Value)
    (actor : Actor) (run : DisclosureRunFull) (detail : DetailEntry)
    (now : Int) (nowText eid : String)
    (hactor : actor.type = "human" ∨ actor.type = "auditor") :
    ∃ newRow : LedgerRow,
      revealCommit signFn s d claims token_id mk g actor run detail now nowText eid =
        (⟨s.runs, markUsed s.tokens token_id now,
          s.audits ++ [⟨d, actor.type, actor.id, claims.subject, mk, g, true, now⟩],
          s.ledger ++ [newRow]⟩,
         .ok ⟨d, mk, g, detail.detail_root, run.root_details, detail.event_hashes,
           detail.event_proofs⟩) ∧
      newRow.event_type = "SelectiveDisclosureRevealed" := by
  have hsig : (expected_signer_role actor.type ==
      expected_signer_role (normalizeRevealActorType actor.type)) = true := by
    rcases hactor with h | h <;> rw [h] <;> decide
  obtain ⟨row, happ, htype⟩ := append_ok_of_allowed signFn s.ledger
    ⟨"SelectiveDisclosureRevealed", ⟨normalizeRevealActorType actor.type, actor.id⟩,
     run.policy_id,
     .obj [("disclosure_id", .str d), ("metric_key", .str mk), ("group", g),
           ("revealed_event_hashes", .arr (detail.event_hashes.map .str)),
           ("challenge_subject", .str claims.subject)],
     .obj [("token_exp", .int claims.exp), ("token_id", .str token_id)], nowText⟩
    (expected_signer_role actor.type) eid hsig
    (evaluate_selective_allowed (normalizeRevealActorType actor.type)
      (expected_signer_role actor.type) _ _ _)
  refine ⟨row, ?_, htype⟩
  simp only [revealCommit, happ]

theorem revealCommit_state_cases (signFn : Value → String → String) (s : RevealState)
    (d : String) (claims : TokenClaims) (token_id mk : String) (g : Value)
    (actor : Actor) (run : DisclosureRunFull) (detail : DetailEntry)
    (now : Int) (nowText eid : String) :
    (revealCommit signFn s d claims token_id mk g actor run detail now nowText eid).1 = s ∨
    ∃ resp, (revealCommit signFn s d claims token_id mk g actor run detail
      now nowText eid).2 = .ok resp := by
  unfold revealCommit
  split
  · left
    rfl
  · right
    exact ⟨_, rfl⟩

/-- `reveal` either leaves the state untouched or returns a success. -/
theorem reveal_state_cases (key : List Nat) (signFn : Value → String → String)
    (s : RevealState) (d : String) (token : Token) (mk : String) (g : Value)
    (actor : Actor) (now : Int) (nowText eid : String) :
    (reveal key signFn s d token mk g actor now nowText eid).1 = s ∨
    ∃ resp, (reveal key signFn s d token mk g actor now nowText eid).2 = .ok resp := by
  simp only [reveal]
  repeat' split
  all_goals first
    | (left; rfl)
    | exact revealCommit_state_cases signFn s d _ _ mk g actor _ _ now nowText eid

theorem verify_token_ok (key : List Nat) (token : Token) (d : String) (now : Int)
    (hmac : token.mac = hmacSha256 key (claimsBytes token.claims))
    (hscope : token.claims.disclosure_id = d)
    (hexp : ¬(token.claims.exp < now)) :
    verify_one_time_token key token d now = .ok token.claims := by
  simp only [verify_one_time_token, hmac, hscope, beq_self_eq_true, Bool.not_true,
    Bool.false_eq_true, if_false, hexp]

end TC

namespace TC

theorem reveal_not_issued (key : List Nat) (signFn : Value → String → String)
    (s : RevealState) (d : String) (token : Token) (mk : String) (g : Value)
    (actor : Actor) (now : Int) (nowText eid : String) (run : DisclosureRunFull)
    (hrole : (actor.type == "human" || actor.type == "auditor") = true)
    (hmac : token.mac = hmacSha256 key (claimsBytes token.claims))
    (hscope : token.claims.disclosure_id = d)
    (hexp : ¬(token.claims.exp < now))
    (hjti : (stripStr token.claims.jti == "") = false)
    (hrun : findRun s.runs d = some run)
    (hrow : findTokenRow s.tokens (stripStr token.claims.jti) = none) :
    reveal key signFn s d token mk g actor now nowText eid = (s, .error .notIssued) := by
  simp only [reveal, verify_token_ok key token d now hmac hscope hexp, hrole,
    Bool.not_true, Bool.false_eq_true, if_false, hjti, hrun, hrow]

theorem reveal_scope_mismatch (key : List Nat) (signFn : Value → String → String)
    (s : RevealState) (d : String) (token : Token) (mk : String) (g : Value)
    (actor : Actor) (now : Int) (nowText eid : String) (run : DisclosureRunFull)
    (row : TokenRow)
    (hrole : (actor.type == "human" || actor.type == "auditor") = true)
    (hmac : token.mac = hmacSha256 key (claimsBytes token.claims))
    (hscope : token.claims.disclosure_id = d)
    (hexp : ¬(token.claims.exp < now))
    (hjti : (stripStr token.claims.jti == "") = false)
    (hrun : findRun s.runs d = some run)
    (hrow : findTokenRow s.tokens (stripStr token.claims.jti) = some row)
    (hrowd : (row.disclosure_id == d) = false) :
    reveal key signFn s d token mk g actor now nowText eid =
      (s, .error .scopeMismatch) := by
  simp only [reveal, verify_token_ok key token d now hmac hscope hexp, hrole,
    Bool.not_true, Bool.false_eq_true, if_false, hjti, hrun, hrow, hrowd,
    Bool.not_false, if_true]

theorem reveal_already_used (key : List Nat) (signFn : Value → String → String)
    (s : RevealState) (d : String) (token : Token) (mk : String) (g : Value)
    (actor : Actor) (now : Int) (nowText eid : String) (run : DisclosureRunFull)
    (row : TokenRow) (u : Int)
    (hrole : (actor.type == "human" || actor.type == "auditor") = true)
    (hmac : token.mac = hmacSha256 key (claimsBytes token.claims))
    (hscope : token.claims.disclosure_id = d)
    (hexp : ¬(token.claims.exp < now))
    (hjti : (stripStr token.claims.jti == "") = false)
    (hrun : findRun s.runs d = some run)
    (hrow : findTokenRow s.tokens (stripStr token.claims.jti) = some row)
    (hrowd : row.disclosure_id = d)
    (hused : row.used_at = some u) :
    reveal key signFn s d token mk g actor now nowText eid =
      (s, .error .alreadyUsed) := by
  simp only [reveal, verify_token_ok key token d now hmac hscope hexp, hrole,
    Bool.not_true, Bool.false_eq_true, if_false, hjti, hrun, hrow, hrowd,
    beq_self_eq_true, hused]

theorem reveal_expired (key : List Nat) (signFn : Value → String → String)
    (s : RevealState) (d : String) (token : Token) (mk : String) (g : Value)
    (actor : Actor) (now : Int) (nowText eid : String) (run : DisclosureRunFull)
    (row : TokenRow)
    (hrole : (actor.type == "human" || actor.type == "auditor") = true)
    (hmac : token.mac = hmacSha256 key (claimsBytes token.claims))
    (hscope : token.claims.disclosure_id = d)
    (hexp : ¬(token.claims.exp < now))
    (hjti : (stripStr token.claims.jti == "") = false)
    (hrun : findRun s.runs d = some run)
    (hrow : findTokenRow s.tokens (stripStr token.claims.jti) = some row)
    (hrowd : row.disclosure_id = d)
    (hused : row.used_at = none)
    (hrexp : row.expires_at < now) :
    reveal key signFn s d token mk g actor now nowText eid =
      (s, .error .tokenExpired) := by
  simp only [reveal, verify_token_ok key token d now hmac hscope hexp, hrole,
    Bool.not_true, Bool.false_eq_true, if_false, hjti, hrun, hrow, hrowd,
    beq_self_eq_true, hused, hrexp, if_true]

theorem reveal_actor_mismatch (key : List Nat) (signFn : Value → String → String)
    (s : RevealState) (d : String) (token : Token) (mk : String) (g : Value)
    (actor : Actor) (now : Int) (nowText eid : String) (run : DisclosureRunFull)
    (row : TokenRow)
    (hrole : (actor.type == "human" || actor.type == "auditor") = true)
    (hmac : token.mac = hmacSha256 key (claimsBytes token.claims))
    (hscope : token.claims.disclosure_id = d)
    (hexp : ¬(token.claims.exp < now))
    (hjti : (stripStr token.claims.jti == "") = false)
    (hrun : findRun s.runs d = some run)
    (hrow : findTokenRow s.tokens (stripStr token.claims.jti) = some row)
    (hrowd : row.disclosure_id = d)
    (hused : row.used_at = none)
    (hrexp : ¬(row.expires_at < now))
    (hact : (row.issued_to_actor_type == actor.type &&
      row.issued_to_actor_id == actor.id) = false) :
    reveal key signFn s d token mk g actor now nowText eid =
      (s, .error .actorMismatch) := by
  simp only [reveal, verify_token_ok key token d now hmac hscope hexp, hrole,
    Bool.not_true, Bool.false_eq_true, if_false, hjti, hrun, hrow, hrowd,
    beq_self_eq_true, hused, hrexp, hact, Bool.not_false, if_true]


/-- Full success characterization of `reveal`: when every check passes the
token row is stamped used, the audit row and the
`SelectiveDisclosureRevealed` ledger event are appended, and the evidence
bundle is returned. -/
theorem reveal_success (key : List Nat) (signFn : Value → String → String)
    (s : RevealState) (d : String) (token : Token) (mk : String) (g : Value)
    (actor : Actor) (now : Int) (nowText eid : String) (run : DisclosureRunFull)
    (row : TokenRow) (detail : DetailEntry)
    (hactor : actor.type = "human" ∨ actor.type = "auditor")
    (hmac : token.mac = hmacSha256 key (claimsBytes token.claims))
    (hscope : token.claims.disclosure_id = d)
    (hexp : ¬(token.claims.exp < now))
    (hjti : (stripStr token.claims.jti == "") = false)
    (hrun : findRun s.runs d = some run)
    (hrow : findTokenRow s.tokens (stripStr token.claims.jti) = some row)
    (hrowd : row.disclosure_id = d)
    (hused : row.used_at = none)
    (hrexp : ¬(row.expires_at < now))
    (hatype : row.issued_to_actor_type = actor.type)
    (haid : row.issued_to_actor_id = actor.id)
    (hdetail : lookupAssoc run.detail_index (proofLookupKey mk g) = some detail) :
    ∃ newRow : LedgerRow,
      reveal key signFn s d token mk g actor now nowText eid =
        (⟨s.runs, markUsed s.tokens (stripStr token.claims.jti) now,
          s.audits ++ [⟨d, actor.type, actor.id, token.claims.subject, mk, g, true, now⟩],
          s.ledger ++ [newRow]⟩,
         .ok ⟨d, mk, g, detail.detail_root, run.root_details, detail.event_hashes,
           detail.event_proofs⟩) ∧
      newRow.event_type = "SelectiveDisclosureRevealed" := by
  have hrole : (actor.type == "human" || actor.type == "auditor") = true := by
    rcases hactor with h | h <;> rw [h] <;> decide
  have hact : (row.issued_to_actor_type == actor.type &&
      row.issued_to_actor_id == actor.id) = true := by
    rw [hatype, haid]
    simp
  have hred : reveal key signFn s d token mk g actor now nowText eid =
      revealCommit signFn s d token.claims (stripStr token.claims.jti) mk g actor run
        detail now nowText eid := by
    simp only [reveal, verify_token_ok key token d now hmac hscope hexp, hrole,
      Bool.not_true, Bool.false_eq_true, if_false, hjti, hrun, hrow, hrowd,
      beq_self_eq_true, hused, hrexp, hact, hdetail]
  obtain ⟨newRow, heq, htype⟩ := revealCommit_ok signFn s d token.claims
    (stripStr token.claims.jti) mk g actor run detail now nowText eid hactor
  exact ⟨newRow, hred.trans heq, htype⟩

/-- Looking the token up again after `markUsed` yields the same row with
`used_at` stamped. -/
theorem findTokenRow_markUsed (tokens : List TokenRow) (tid : String) (row : TokenRow)
    (now : Int) (h : findTokenRow tokens tid = some row) :
    findTokenRow (markUsed tokens tid now) tid =
      some ⟨row.token_id, row.disclosure_id, row.subject, row.issued_to_actor_type,
        row.issued_to_actor_id, row.expires_at, some now, row.created_at⟩ := by
  induction tokens with
  | nil => simp [findTokenRow] at h
  | cons t rest ih =>
    cases hb : (t.token_id == tid) with
    | true =>
      rw [findTokenRow, if_pos hb] at h
      cases h
      simp [markUsed, findTokenRow, hb]
    | false =>
      rw [findTokenRow, if_neg (by simp [hb])] at h
      have hm : markUsed (t :: rest) tid now = t :: markUsed rest tid now := by
        simp only [markUsed, List.map_cons, hb, Bool.false_eq_true, if_false]
      rw [hm, findTokenRow, if_neg (by simp [hb])]
      exact ih h

end TC

namespace TC

/-- C7: a selective-reveal token is single-use. For every well-formed token
(valid MAC, in-scope, unexpired, non-blank jti) presented by a human or
auditor: an unknown token id fails NotIssued (401); a token row bound to a
different disclosure fails ScopeMismatch (401); an expired row fails
Expired (401); a requesting actor different from the issued-to identity
fails ActorMismatch (403); and a successful reveal stamps the row's
`used_at`, after which every subsequent reveal presenting the same token —
any metric, group or instant — fails AlreadyUsed (409). -/
theorem C7_token_single_use (key : List Nat) (signFn : Value → String → String)
    (s : RevealState) (d : String) (token : Token) (mk : String) (g : Value)
    (actor : Actor) (now : Int) (nowText eid : String)
    (hactor : actor.type = "human" ∨ actor.type = "auditor")
    (hmac : token.mac = hmacSha256 key (claimsBytes token.claims))
    (hscope : token.claims.disclosure_id = d)
    (hexp : ¬(token.claims.exp < now))
    (hjti : (stripStr token.claims.jti == "") = false) :
    (∀ run : DisclosureRunFull, findRun s.runs d = some run →
      findTokenRow s.tokens (stripStr token.claims.jti) = none →
      reveal key signFn s d token mk g actor now nowText eid = (s, .error .notIssued) ∧
      revealErrorStatus .notIssued = 401) ∧
    (∀ (run : DisclosureRunFull) (row : TokenRow), findRun s.runs d = some run →
      findTokenRow s.tokens (stripStr token.claims.jti) = some row →
      (row.disclosure_id == d) = false →
      reveal key signFn s d token mk g actor now nowText eid =
        (s, .error .scopeMismatch) ∧
      revealErrorStatus .scopeMismatch = 401) ∧
    (∀ (run : DisclosureRunFull) (row : TokenRow), findRun s.runs d = some run →
      findTokenRow s.tokens (stripStr token.claims.jti) = some row →
      row.disclosure_id = d → row.used_at = none → row.expires_at < now →
      reveal key signFn s d token mk g actor now nowText eid =
        (s, .error .tokenExpired) ∧
      revealErrorStatus .tokenExpired = 401) ∧
    (∀ (run : DisclosureRunFull) (row : TokenRow), findRun s.runs d = some run →
      findTokenRow s.tokens (stripStr token.claims.jti) = some row →
      row.disclosure_id = d → row.used_at = none → ¬(row.expires_at < now) →
      (row.issued_to_actor_type == actor.type &&
        row.issued_to_actor_id == actor.id) = false →
      reveal key signFn s d token mk g actor now nowText eid =
        (s, .error .actorMismatch) ∧
      revealErrorStatus .actorMismatch = 403) ∧
    (∀ (run : DisclosureRunFull) (row : TokenRow) (detail : DetailEntry),
      findRun s.runs d = some run →
      findTokenRow s.tokens (stripStr token.claims.jti) = some row →
      row.disclosure_id = d → row.used_at = none → ¬(row.expires_at < now) →
      row.issued_to_actor_type = actor.type → row.issued_to_actor_id = actor.id →
      lookupAssoc run.detail_index (proofLookupKey mk g) = some detail →
      (∃ resp, (reveal key signFn s d token mk g actor now nowText eid).2 = .ok resp) ∧
      findTokenRow (reveal key signFn s d token mk g actor now nowText eid).1.tokens
        (stripStr token.claims.jti) =
        some ⟨row.token_id, row.disclosure_id, row.subject, row.issued_to_actor_type,
          row.issued_to_actor_id, row.expires_at, some now, row.created_at⟩ ∧
      (∀ (mk2 : String) (g2 : Value) (now2 : Int) (nowText2 eid2 : String),
        ¬(token.claims.exp < now2) →
        reveal key signFn (reveal key signFn s d token mk g actor now nowText eid).1
          d token mk2 g2 actor now2 nowText2 eid2 =
          ((reveal key signFn s d token mk g actor now nowText eid).1,
            .error .alreadyUsed) ∧
        revealErrorStatus .alreadyUsed = 409)) := by
  have hrole : (actor.type == "human" || actor.type == "auditor") = true := by
    rcases hactor with h | h <;> rw [h] <;> decide
  refine ⟨?_, ?_, ?_, ?_, ?_⟩
  · intro run hrun hrow
    exact ⟨reveal_not_issued key signFn s d token mk g actor now nowText eid run
      hrole hmac hscope hexp hjti hrun hrow, rfl⟩
  · intro run row hrun hrow hrowd
    exact ⟨reveal_scope_mismatch key signFn s d token mk g actor now nowText eid run row
      hrole hmac hscope hexp hjti hrun hrow hrowd, rfl⟩
  · intro run row hrun hrow hrowd hused hrexp
    exact ⟨reveal_expired key signFn s d token mk g actor now nowText eid run row
      hrole hmac hscope hexp hjti hrun hrow hrowd hused hrexp, rfl⟩
  · intro run row hrun hrow hrowd hused hrexp hact
    exact ⟨reveal_actor_mismatch key signFn s d token mk g actor now nowText eid run row
      hrole hmac hscope hexp hjti hrun hrow hrowd hused hrexp hact, rfl⟩
  · intro run row detail hrun hrow hrowd hused hrexp hatype haid hdetail
    obtain ⟨newRow, heq, -⟩ := reveal_success key signFn s d token mk g actor now nowText
      eid run row detail hactor hmac hscope hexp hjti hrun hrow hrowd hused hrexp
      hatype haid hdetail
    refine ⟨⟨⟨d, mk, g, detail.detail_root, run.root_details, detail.event_hashes,
      detail.event_proofs⟩, by rw [heq]⟩, ?_, ?_⟩
    · rw [heq]
      exact findTokenRow_markUsed s.tokens _ row now hrow
    · intro mk2 g2 now2 nowText2 eid2 hexp2
      rw [heq]
      refine ⟨?_, rfl⟩
      exact reveal_already_used key signFn _ d token mk2 g2 actor now2 nowText2 eid2
        run ⟨row.token_id, row.disclosure_id, row.subject, row.issued_to_actor_type,
          row.issued_to_actor_id, row.expires_at, some now, row.created_at⟩ now
        hrole hmac hscope hexp2 hjti hrun
        (findTokenRow_markUsed s.tokens _ row now hrow) hrowd rfl

end TC

namespace TC

/-- Concrete witness fixture for the reveal flow: one published run with one
detail entry, one issued token row, the matching MAC envelope. -/
def c7Key : List Nat := [1, 2, 3]

def c7Sign : Value → String → String := fun _ _ => "sig"

def c7Claims : TokenClaims := ⟨"t1", "subj", "d1", "human", "h1", 0, 1000⟩

def c7Token : Token := ⟨c7Claims, hmacSha256 c7Key (claimsBytes c7Claims)⟩

def c7Actor : Actor := ⟨"human", "h1"⟩

def c7Row : TokenRow := ⟨"t1", "d1", "subj", "human", "h1", 1000, none, 0⟩

def c7Detail : DetailEntry := ⟨"deadbeef", ["aa"], []⟩

def c7Run : DisclosureRunFull := ⟨"d1", "p1", "root", none, [], [("m|\x7b\x7d", c7Detail)]⟩

def c7State : RevealState := ⟨[c7Run], [c7Row], [], []⟩

theorem C7_token_single_use_witness :
    findTokenRow (reveal c7Key c7Sign c7State "d1" c7Token "m" (Value.obj []) c7Actor 100
      "tsA" "e1").1.tokens (stripStr c7Token.claims.jti) =
      some ⟨"t1", "d1", "subj", "human", "h1", 1000, some 100, 0⟩ ∧
    reveal c7Key c7Sign (reveal c7Key c7Sign c7State "d1" c7Token "m" (Value.obj [])
      c7Actor 100 "tsA" "e1").1 "d1" c7Token "m" (Value.obj []) c7Actor 200 "tsB" "e2" =
      ((reveal c7Key c7Sign c7State "d1" c7Token "m" (Value.obj []) c7Actor 100
        "tsA" "e1").1, .error .alreadyUsed) ∧
    revealErrorStatus .alreadyUsed = 409 := by
  have h5 := (C7_token_single_use c7Key c7Sign c7State "d1" c7Token "m" (Value.obj [])
    c7Actor 100 "tsA" "e1" (Or.inl rfl) rfl rfl (by decide) (by decide)).2.2.2.2
    c7Run c7Row c7Detail rfl rfl rfl rfl (by decide) rfl rfl rfl
  exact ⟨h5.2.1, (h5.2.2 "m" (Value.obj []) 200 "tsB" "e2" (by decide)).1,
    (h5.2.2 "m" (Value.obj []) 200 "tsB" "e2" (by decide)).2⟩

end TC

namespace TC

/-- C10: a failed reveal consumes nothing. Whenever `reveal` returns an
error — for any reason in its catalogue — the returned state is exactly the
input state: the token row's `used_at` is untouched, no selective-reveal
audit row is added and no `SelectiveDisclosureRevealed` ledger event is
written; consequently the same token still redeems in a later valid call
made against the state the failed call left behind. -/
theorem C10_failed_reveal_consumes_nothing (key : List Nat)
    (signFn : Value → String → String) (s : RevealState) (d : String) (token : Token)
    (mk : String) (g : Value) (actor : Actor) (now : Int) (nowText eid : String)
    (e : RevealError)
    (h : (reveal key signFn s d token mk g actor now nowText eid).2 = .error e) :
    (reveal key signFn s d token mk g actor now nowText eid).1 = s ∧
    (∀ (mk2 : String) (g2 : Value) (now2 : Int) (nowText2 eid2 : String)
        (run : DisclosureRunFull) (row : TokenRow) (detail : DetailEntry),
      actor.type = "human" ∨ actor.type = "auditor" →
      token.mac = hmacSha256 key (claimsBytes token.claims) →
      token.claims.disclosure_id = d →
      ¬(token.claims.exp < now2) →
      (stripStr token.claims.jti == "") = false →
      findRun s.runs d = some run →
      findTokenRow s.tokens (stripStr token.claims.jti) = some row →
      row.disclosure_id = d → row.used_at = none → ¬(row.expires_at < now2) →
      row.issued_to_actor_type = actor.type → row.issued_to_actor_id = actor.id →
      lookupAssoc run.detail_index (proofLookupKey mk2 g2) = some detail →
      (reveal key signFn (reveal key signFn s d token mk g actor now nowText eid).1
        d token mk2 g2 actor now2 nowText2 eid2).2 =
        .ok ⟨d, mk2, g2, detail.detail_root, run.root_details, detail.event_hashes,
          detail.event_proofs⟩) := by
  have h1 : (reveal key signFn s d token mk g actor now nowText eid).1 = s := by
    rcases reveal_state_cases key signFn s d token mk g actor now nowText eid with
      hs | ⟨r, hr⟩
    · exact hs
    · rw [h] at hr
      exact Except.noConfusion hr
  refine ⟨h1, ?_⟩
  intro mk2 g2 now2 nowText2 eid2 run row detail hactor hmac hscope hexp2 hjti hrun hrow
    hrowd hused hrexp hatype haid hdetail
  rw [h1]
  obtain ⟨newRow, heq, -⟩ := reveal_success key signFn s d token mk2 g2 actor now2
    nowText2 eid2 run row detail hactor hmac hscope hexp2 hjti hrun hrow hrowd hused
    hrexp hatype haid hdetail
  rw [heq]

end TC

namespace TC

/-- Fixture for the failed-then-redeemed reveal: same shape as the `c7`
fixture, independent copy. -/
def c10Key : List Nat := [1, 2, 3]

def c10Sign : Value → String → String := fun _ _ => "sig"

def c10Claims : TokenClaims := ⟨"t1", "subj", "d1", "human", "h1", 0, 1000⟩

def c10Token : Token := ⟨c10Claims, hmacSha256 c10Key (claimsBytes c10Claims)⟩

def c10Actor : Actor := ⟨"human", "h1"⟩

def c10Row : TokenRow := ⟨"t1", "d1", "subj", "human", "h1", 1000, none, 0⟩

def c10Detail : DetailEntry := ⟨"deadbeef", ["aa"], []⟩

def c10Run : DisclosureRunFull :=
  ⟨"d1", "p1", "root", none, [], [("m|\x7b\x7d", c10Detail)]⟩

def c10State : RevealState := ⟨[c10Run], [c10Row], [], []⟩

set_option maxRecDepth 16384 in
set_option maxHeartbeats 2000000 in
theorem C10_failed_reveal_consumes_nothing_witness :
    (reveal c10Key c10Sign c10State "d1" c10Token "nope" (Value.obj []) c10Actor 100
      "tsA" "e1").1 = c10State ∧
    (reveal c10Key c10Sign (reveal c10Key c10Sign c10State "d1" c10Token "nope"
      (Value.obj []) c10Actor 100 "tsA" "e1").1 "d1" c10Token "m" (Value.obj [])
      c10Actor 200 "tsB" "e2").2 =
      .ok ⟨"d1", "m", Value.obj [], "deadbeef", none, ["aa"], []⟩ :=
  have h := C10_failed_reveal_consumes_nothing c10Key c10Sign c10State "d1" c10Token
    "nope" (Value.obj []) c10Actor 100 "tsA" "e1" .noDetail rfl
  ⟨h.1, h.2 "m" (Value.obj []) 200 "tsB" "e2" c10Run c10Row c10Detail (Or.inl rfl) rfl
    rfl (by decide) (by decide) rfl rfl rfl rfl (by decide) rfl rfl rfl⟩

end TC
